import Mathlib

/-!
Shallow embedding of the HearSight backend core (job store, claimer, pipeline
worker, chat orchestrators, context formatter) together with theorems checking
the natural-language specification against the code.

Sources embedded:
- `src/backend/db/pg_store.py` (jobs table operations, chat history)
- `src/main.py` (`_job_worker` staged pipeline)
- `src/backend/rag_utils/context_formatter.py`
- `src/backend/knowledge/chat_client.py`, `knowledge_service.py`
- `src/backend/routers/qdrant_rag.py` (`qdrant_chat`)

Conventions: Python floats are modelled as rationals; JSON objects as
association lists with dict semantics; fallible external calls (network,
subprocess) as `Except String` oracles supplied in an environment record;
database rows as Lean structures and SQL statements as list transformations.
-/

namespace HearSight

/-- JSON-like value stored in a `jobs.result_json` field. Lists (segments,
summaries, files) are abstracted to lists of atoms since only their length
and identity are ever inspected by the embedded code. -/
inductive JVal where
  | vnull
  | vbool (b : Bool)
  | vnat (n : Nat)
  | vstr (s : String)
  | vlist (items : List Nat)
  deriving DecidableEq, Repr

/-- Python truthiness, as used by the `if not res.get(...)` stage guards in
`main.py`. -/
def JVal.truthy : JVal → Bool
  | .vnull => false
  | .vbool b => b
  | .vnat n => n != 0
  | .vstr s => !s.isEmpty
  | .vlist items => !items.isEmpty

/-- A JSON object, in insertion order, as Python dicts are. -/
abbrev ResultMap := List (String × JVal)

/-- Python dict lookup `d.get(k)` (dict keys are unique; first match). -/
def getField : ResultMap → String → Option JVal
  | [], _ => none
  | kv :: rest, k => if kv.1 = k then some kv.2 else getField rest k

/-- Python dict assignment `d[k] = v`: replace the existing binding in place,
else append. -/
def setField : ResultMap → String → JVal → ResultMap
  | [], k, v => [(k, v)]
  | kv :: rest, k, v =>
      if kv.1 = k then (k, v) :: rest else kv :: setField rest k v

/-- Python `current.update(patch)`: fold the patch bindings over the current
dict, each overwriting. -/
def mergePatch (m patch : ResultMap) : ResultMap :=
  patch.foldl (fun acc kv => setField acc kv.1 kv.2) m

/-- The binding of `k` that survives `dict.update`: the last one in the patch.
For a patch that is itself a Python dict the keys are unique, so this is the
binding of `k`. -/
def lastField : ResultMap → String → Option JVal
  | [], _ => none
  | kv :: rest, k =>
      match lastField rest k with
      | some v => some v
      | none => if kv.1 = k then some kv.2 else none

theorem getField_setField (m : ResultMap) (k k' : String) (v : JVal) :
    getField (setField m k v) k' = if k' = k then some v else getField m k' := by
  induction m with
  | nil =>
      by_cases h : k' = k
      · simp [setField, getField, h]
      · simp [setField, getField, h, Ne.symm h]
  | cons kv rest ih =>
      by_cases hk : kv.1 = k
      · by_cases h : k' = k
        · simp [setField, getField, hk, h]
        · simp [setField, getField, hk, h, Ne.symm h]
      · by_cases h : k' = k
        · subst h
          simp [setField, getField, hk, ih]
        · by_cases hkv : kv.1 = k'
          · simp [setField, getField, hk, hkv, h]
          · simp [setField, getField, hk, hkv, h, ih]

theorem getField_mergePatch (patch m : ResultMap) (k : String) :
    getField (mergePatch m patch) k =
      match lastField patch k with
      | some v => some v
      | none => getField m k := by
  induction patch generalizing m with
  | nil => simp [mergePatch, lastField]
  | cons kv rest ih =>
      show getField (mergePatch (setField m kv.1 kv.2) rest) k = _
      rw [ih]
      cases hrest : lastField rest k with
      | some v => simp [lastField, hrest]
      | none =>
          rw [getField_setField]
          by_cases h : k = kv.1
          · subst h
            simp [lastField, hrest]
          · simp [lastField, hrest, h, Ne.symm h]

/-- Contents of the `jobs.result_json` column: SQL NULL / blank, a JSON
object, or JSON that is not an object (including unparsable text) —
`update_job_result` distinguishes exactly these three cases. -/
inductive StoredResult where
  | empty
  | dict (m : ResultMap)
  | nonDict
  deriving DecidableEq, Repr

/-- One row of the `jobs` table (`pg_store.init_db` schema). -/
structure JobRow where
  id : Nat
  url : String
  status : String
  createdAt : Nat
  startedAt : Option Nat
  finishedAt : Option Nat
  resultJson : StoredResult
  error : Option String
  deriving DecidableEq, Repr

abbrev JobsDb := List JobRow

/-- Embeds `pg_store.update_job_result`: read the row's `result_json`, treat
NULL/blank or non-object JSON as `{}`, `current.update(patch)`, write back,
optionally also setting `status`. A missing row makes the UPDATE a no-op. -/
def update_job_result (db : JobsDb) (jobId : Nat) (patch : ResultMap)
    (status : Option String) : JobsDb :=
  db.map (fun r =>
    if r.id == jobId then
      let current : ResultMap :=
        match r.resultJson with
        | .dict m => m
        | _ => []
      { r with
          resultJson := .dict (mergePatch current patch),
          status := match status with | some st => st | none => r.status }
    else r)

/-- Embeds `pg_store.finish_job_success`. -/
def finish_job_success (db : JobsDb) (jobId : Nat) (result : ResultMap)
    (now : Nat) : JobsDb :=
  db.map (fun r =>
    if r.id == jobId then
      { r with status := "success", finishedAt := some now,
               resultJson := .dict result }
    else r)

/-- Embeds `pg_store.finish_job_failed`. -/
def finish_job_failed (db : JobsDb) (jobId : Nat) (err : String)
    (now : Nat) : JobsDb :=
  db.map (fun r =>
    if r.id == jobId then
      { r with status := "failed", finishedAt := some now, error := some err }
    else r)

/-- Sort key for `ORDER BY started_at ASC` (Postgres puts NULLs last on ASC):
`(0, t)` for a set timestamp, `(1, 0)` for NULL. -/
def startedKey (r : JobRow) : Nat × Nat :=
  match r.startedAt with
  | some t => (0, t)
  | none => (1, 0)

/-- Lexicographic `≤` on the sort key, as a Bool. -/
def keyLe (a b : Nat × Nat) : Bool :=
  a.1 < b.1 || (a.1 == b.1 && a.2 ≤ b.2)

/-- Running minimum under `key`, keeping the earlier row on ties. -/
def minFrom (key : JobRow → Nat × Nat) (r : JobRow) : List JobRow → JobRow
  | [] => r
  | x :: rest =>
      if keyLe (key r) (key x) then minFrom key r rest else minFrom key x rest

/-- First row minimal under `key` (the row SQL returns for `ORDER BY key ASC
LIMIT 1`; ties resolved to the earlier row, SQL leaves them unspecified). -/
def minByKey (key : JobRow → Nat × Nat) : List JobRow → Option JobRow
  | [] => none
  | r :: rest => some (minFrom key r rest)

/-- Row predicate of the pending-claim SELECT. -/
def isPending (r : JobRow) : Bool := r.status == "pending"

/-- Row predicate of the recovery SELECT
(`status = 'running' AND finished_at IS NULL`). -/
def isAbandoned (r : JobRow) : Bool :=
  r.status == "running" && r.finishedAt.isNone

/-- Embeds `pg_store.claim_next_pending_job` as seen by a single caller
(its two SELECTs and the conditional UPDATE, run in one transaction):
first the oldest pending row is claimed and set running, otherwise the oldest
unfinished running row is returned untouched. Returns `(id, url)` and the
resulting table. -/
def claim_next_pending_job (db : JobsDb) (now : Nat) :
    Option (Nat × String) × JobsDb :=
  match minByKey (fun r => (0, r.id)) (db.filter isPending) with
  | some r =>
      (some (r.id, r.url),
        db.map (fun x =>
          if x.id == r.id then
            { x with status := "running", startedAt := some now }
          else x))
  | none =>
      match minByKey startedKey (db.filter isAbandoned) with
      | some r2 => (some (r2.id, r2.url), db)
      | none => (none, db)

theorem keyLe_total (a b : Nat × Nat) : keyLe a b = true ∨ keyLe b a = true := by
  simp only [keyLe, Bool.or_eq_true, decide_eq_true_eq, Bool.and_eq_true,
    beq_iff_eq]
  omega

theorem keyLe_trans {a b c : Nat × Nat} (h₁ : keyLe a b = true)
    (h₂ : keyLe b c = true) : keyLe a c = true := by
  simp only [keyLe, Bool.or_eq_true, decide_eq_true_eq, Bool.and_eq_true,
    beq_iff_eq] at *
  omega

theorem keyLe_refl (a : Nat × Nat) : keyLe a a = true := by
  rcases keyLe_total a a with h | h <;> exact h

theorem minFrom_mem (key : JobRow → Nat × Nat) (r : JobRow) (l : List JobRow) :
    minFrom key r l ∈ r :: l := by
  induction l generalizing r with
  | nil => simp [minFrom]
  | cons x rest ih =>
      simp only [minFrom]
      by_cases hle : keyLe (key r) (key x) = true
      · rw [if_pos hle]
        rcases List.mem_cons.mp (ih r) with h | h
        · simp [h]
        · exact List.mem_cons_of_mem _ (List.mem_cons_of_mem _ h)
      · rw [if_neg hle]
        rcases List.mem_cons.mp (ih x) with h | h
        · simp [h]
        · exact List.mem_cons_of_mem _ (List.mem_cons_of_mem _ h)

theorem minFrom_le (key : JobRow → Nat × Nat) (r : JobRow) (l : List JobRow) :
    ∀ x ∈ r :: l, keyLe (key (minFrom key r l)) (key x) = true := by
  induction l generalizing r with
  | nil =>
      intro x hx
      rcases List.mem_cons.mp hx with h | h
      · subst h; simp [minFrom, keyLe_refl]
      · simp at h
  | cons y rest ih =>
      intro x hx
      simp only [minFrom]
      by_cases hle : keyLe (key r) (key y) = true
      · rw [if_pos hle]
        rcases List.mem_cons.mp hx with h | h
        · rw [h]
          exact ih r r (List.mem_cons_self r rest)
        · rcases List.mem_cons.mp h with h2 | h2
          · rw [h2]
            exact keyLe_trans (ih r r (List.mem_cons_self r rest)) hle
          · exact ih r x (List.mem_cons_of_mem r h2)
      · rw [if_neg hle]
        have hyr : keyLe (key y) (key r) = true := by
          rcases keyLe_total (key r) (key y) with h2 | h2
          · exact absurd h2 hle
          · exact h2
        rcases List.mem_cons.mp hx with h | h
        · rw [h]
          exact keyLe_trans (ih y y (List.mem_cons_self y rest)) hyr
        · rcases List.mem_cons.mp h with h2 | h2
          · rw [h2]
            exact ih y y (List.mem_cons_self y rest)
          · exact ih y x (List.mem_cons_of_mem y h2)

theorem minByKey_mem {key : JobRow → Nat × Nat} {l : List JobRow} {r : JobRow}
    (h : minByKey key l = some r) : r ∈ l := by
  cases l with
  | nil => simp [minByKey] at h
  | cons x rest =>
      simp only [minByKey, Option.some.injEq] at h
      exact h ▸ minFrom_mem key x rest

theorem minByKey_le {key : JobRow → Nat × Nat} {l : List JobRow} {r : JobRow}
    (h : minByKey key l = some r) :
    ∀ x ∈ l, keyLe (key r) (key x) = true := by
  cases l with
  | nil => simp [minByKey] at h
  | cons x rest =>
      simp only [minByKey, Option.some.injEq] at h
      exact h ▸ minFrom_le key x rest

theorem minByKey_none {key : JobRow → Nat × Nat} {l : List JobRow}
    (h : minByKey key l = none) : l = [] := by
  cases l with
  | nil => rfl
  | cons x rest => simp [minByKey] at h

/-- C2: `checkpoint` (`update_job_result`) merges the patch into the stored
result by field-level upsert: every previously-set field is still present
afterwards (unchanged unless the patch overwrites it), every patch field ends
up with its patch value, and no previously-set field is removed. -/
theorem C2_update_job_result_field_upsert (db : JobsDb) (jobId : Nat)
    (patch : ResultMap) (status : Option String) (r : JobRow) (m : ResultMap)
    (hr : r ∈ db) (hid : r.id = jobId) (hm : r.resultJson = .dict m) :
    ∃ r', r' ∈ update_job_result db jobId patch status ∧ r'.id = jobId ∧
      ∃ m', r'.resultJson = .dict m' ∧
        (∀ k v, getField m k = some v →
          ∃ v', getField m' k = some v' ∧
            (v' = v ∨ lastField patch k = some v')) ∧
        (∀ k v, lastField patch k = some v → getField m' k = some v) ∧
        (∀ k, getField m k ≠ none → getField m' k ≠ none) := by
  refine ⟨{ r with
      resultJson := .dict (mergePatch m patch),
      status := match status with | some st => st | none => r.status },
    ?_, hid, mergePatch m patch, rfl, ?_, ?_, ?_⟩
  · refine List.mem_map.mpr ⟨r, hr, ?_⟩
    have hbeq : (r.id == jobId) = true := by simp [hid]
    simp only [hbeq, if_true, hm]
  · intro k v hk
    rw [getField_mergePatch]
    cases hp : lastField patch k with
    | some w => exact ⟨w, rfl, Or.inr rfl⟩
    | none => exact ⟨v, hk, Or.inl rfl⟩
  · intro k v hp
    rw [getField_mergePatch, hp]
  · intro k hk
    rw [getField_mergePatch]
    cases hp : lastField patch k with
    | some w => simp
    | none => simpa using hk

/-- Witness for C2 at a concrete job and patch. -/
theorem C2_update_job_result_field_upsert_witness :
    ∃ r', r' ∈ update_job_result
        [{ id := 1, url := "u", status := "running", createdAt := 0,
           startedAt := some 1, finishedAt := none,
           resultJson := .dict [("media_path", JVal.vstr "/tmp/a.mp4")],
           error := none }]
        1 [("transcript_id", JVal.vnat 7)] none ∧ r'.id = 1 ∧
      ∃ m', r'.resultJson = .dict m' ∧
        (∀ k v, getField [("media_path", JVal.vstr "/tmp/a.mp4")] k = some v →
          ∃ v', getField m' k = some v' ∧
            (v' = v ∨ lastField [("transcript_id", JVal.vnat 7)] k = some v')) ∧
        (∀ k v, lastField [("transcript_id", JVal.vnat 7)] k = some v →
          getField m' k = some v) ∧
        (∀ k, getField [("media_path", JVal.vstr "/tmp/a.mp4")] k ≠ none →
          getField m' k ≠ none) :=
  C2_update_job_result_field_upsert _ 1 _ none
    { id := 1, url := "u", status := "running", createdAt := 0,
      startedAt := some 1, finishedAt := none,
      resultJson := .dict [("media_path", JVal.vstr "/tmp/a.mp4")],
      error := none } _ (by simp) rfl rfl

/-- C4: when no pending row exists, `claim_next_pending_job` takes the
recovery path: the table is returned completely unchanged (every field of
every row), and the returned pair is the id and url of an oldest row with
`status = 'running'` and `finished_at` unset (none is returned only when no
such row exists). -/
theorem C4_claim_recovery_frame (db : JobsDb) (now : Nat)
    (hnp : ∀ r ∈ db, isPending r = false) :
    (claim_next_pending_job db now).2 = db ∧
    (match (claim_next_pending_job db now).1 with
     | some (i, u) => ∃ r ∈ db, r.id = i ∧ r.url = u ∧ isAbandoned r = true ∧
         ∀ r' ∈ db, isAbandoned r' = true →
           keyLe (startedKey r) (startedKey r') = true
     | none => ∀ r ∈ db, isAbandoned r = false) := by
  have hfilter : db.filter isPending = [] := by
    apply List.filter_eq_nil_iff.mpr
    intro r hr
    simp [hnp r hr]
  cases hmin : minByKey startedKey (db.filter isAbandoned) with
  | some r2 =>
      have hgoal : claim_next_pending_job db now = (some (r2.id, r2.url), db) := by
        unfold claim_next_pending_job
        rw [hfilter, hmin]
        rfl
      rw [hgoal]
      refine ⟨rfl, ?_⟩
      show ∃ r ∈ db, r.id = r2.id ∧ r.url = r2.url ∧ isAbandoned r = true ∧
        ∀ r' ∈ db, isAbandoned r' = true →
          keyLe (startedKey r) (startedKey r') = true
      have hmem := minByKey_mem hmin
      have hle := minByKey_le hmin
      refine ⟨r2, (List.mem_filter.mp hmem).1, rfl, rfl,
        (List.mem_filter.mp hmem).2, ?_⟩
      intro r' hr' hab
      exact hle r' (List.mem_filter.mpr ⟨hr', hab⟩)
  | none =>
      have hgoal : claim_next_pending_job db now = (none, db) := by
        unfold claim_next_pending_job
        rw [hfilter, hmin]
        rfl
      rw [hgoal]
      refine ⟨rfl, ?_⟩
      show ∀ r ∈ db, isAbandoned r = false
      intro r hr
      by_contra hab
      have hmemf : r ∈ db.filter isAbandoned :=
        List.mem_filter.mpr ⟨hr, by simpa using hab⟩
      rw [minByKey_none hmin] at hmemf
      simp at hmemf

/-- Sample table for the C4 witness: one abandoned running row, no pending
row. -/
def abandonedOnlyDb : JobsDb :=
  [{ id := 3, url := "v", status := "running", createdAt := 0,
     startedAt := some 5, finishedAt := none,
     resultJson := .empty, error := none }]

/-- Witness for C4 at the concrete one-row table. -/
theorem C4_claim_recovery_frame_witness :
    (claim_next_pending_job abandonedOnlyDb 9).2 = abandonedOnlyDb ∧
    (match (claim_next_pending_job abandonedOnlyDb 9).1 with
     | some (i, u) => ∃ r ∈ abandonedOnlyDb, r.id = i ∧ r.url = u ∧
         isAbandoned r = true ∧
         ∀ r' ∈ abandonedOnlyDb, isAbandoned r' = true →
           keyLe (startedKey r) (startedKey r') = true
     | none => ∀ r ∈ abandonedOnlyDb, isAbandoned r = false) :=
  C4_claim_recovery_frame abandonedOnlyDb 9 (by decide)

/-! Concurrency model for the pending-claim path of
`claim_next_pending_job`. Each caller runs the transaction in two visible
steps: the locking SELECT (`FOR UPDATE SKIP LOCKED`), which takes the row
lock, and the commit of the UPDATE (`status = 'running', started_at =
now()`), which releases it. Between the two, concurrent callers skip the
locked row. A caller that finds no unlocked pending row gives up (the
recovery branch is modelled separately above, it claims nothing). -/

/-- Phase of one concurrent caller of `claim_next_pending_job`. -/
inductive Phase where
  | idle
  | lockedOn (jid : Nat) (url : String)
  | finished (out : Option (Nat × String))
  deriving DecidableEq, Repr

/-- Global state: the shared `jobs` table, each caller's phase, a clock. -/
structure SysState where
  db : JobsDb
  workers : List Phase
  time : Nat
  deriving DecidableEq, Repr

/-- Ids of rows currently row-locked by an in-flight claim transaction. -/
def lockedIds : List Phase → List Nat
  | [] => []
  | .lockedOn j _ :: ws => j :: lockedIds ws
  | _ :: ws => lockedIds ws

/-- Rows visible to the locking SELECT: `status = 'pending'`, skipping rows
locked by another in-flight claim (`FOR UPDATE SKIP LOCKED`). -/
def selectablePending (db : JobsDb) (ws : List Phase) : List JobRow :=
  db.filter (fun r => isPending r && !(decide (r.id ∈ lockedIds ws)))

/-- One scheduler step: caller `c` performs the next action of its claim
transaction. An idle caller runs the locking SELECT (oldest id first); a
caller holding a lock commits its UPDATE and returns the row. -/
def step (s : SysState) (c : Nat) : SysState :=
  match s.workers.get? c with
  | some .idle =>
      match minByKey (fun r => (0, r.id)) (selectablePending s.db s.workers) with
      | some r =>
          { s with workers := s.workers.set c (.lockedOn r.id r.url),
                   time := s.time + 1 }
      | none =>
          { s with workers := s.workers.set c (.finished none),
                   time := s.time + 1 }
  | some (.lockedOn jid url) =>
      { db := s.db.map (fun x =>
          if x.id == jid then
            { x with status := "running", startedAt := some s.time }
          else x),
        workers := s.workers.set c (.finished (some (jid, url))),
        time := s.time + 1 }
  | _ => { s with time := s.time + 1 }

/-- Interleaved execution under an arbitrary schedule. -/
def run (s : SysState) (sched : List Nat) : SysState :=
  sched.foldl step s

/-- Initial state: the given table, `n` idle callers. -/
def initState (rows : JobsDb) (n : Nat) : SysState :=
  { db := rows, workers := List.replicate n .idle, time := 0 }

/-- The job a caller currently claims: the row it locked, or the row it
returned. -/
def claimOf : Phase → Option Nat
  | .lockedOn j _ => some j
  | .finished (some (j, _)) => some j
  | _ => none

/-- Claim of caller `c` among the callers `ws`. -/
def claimAt (ws : List Phase) (c : Nat) : Option Nat :=
  (ws.get? c).bind claimOf

theorem get?_set_self {α : Type} (l : List α) (c : Nat) (x : α)
    (h : c < l.length) : (l.set c x).get? c = some x := by
  induction l generalizing c with
  | nil => simp at h
  | cons a rest ih =>
      cases c with
      | zero => rfl
      | succ c' =>
          simp only [List.set, List.get?]
          exact ih c' (by simpa using h)

theorem get?_set_ne {α : Type} (l : List α) (c c' : Nat) (x : α)
    (h : c ≠ c') : (l.set c x).get? c' = l.get? c' := by
  induction l generalizing c c' with
  | nil => simp
  | cons a rest ih =>
      cases c with
      | zero =>
          cases c' with
          | zero => exact absurd rfl h
          | succ d => rfl
      | succ cc =>
          cases c' with
          | zero => rfl
          | succ d =>
              simp only [List.set, List.get?]
              exact ih cc d (fun hh => h (by rw [hh]))

theorem lockedIds_mem (ws : List Phase) (j : Nat) :
    j ∈ lockedIds ws ↔ ∃ c u, ws.get? c = some (.lockedOn j u) := by
  induction ws with
  | nil => simp [lockedIds]
  | cons w rest ih =>
      cases w with
      | idle =>
          simp only [lockedIds]
          rw [ih]
          constructor
          · rintro ⟨c, u, hc⟩
            exact ⟨c + 1, u, hc⟩
          · rintro ⟨c, u, hc⟩
            cases c with
            | zero => simp [List.get?] at hc
            | succ d => exact ⟨d, u, hc⟩
      | lockedOn j2 u2 =>
          simp only [lockedIds, List.mem_cons]
          constructor
          · rintro (h | h)
            · exact ⟨0, u2, by rw [h]; rfl⟩
            · obtain ⟨c, u, hc⟩ := ih.mp h
              exact ⟨c + 1, u, hc⟩
          · rintro ⟨c, u, hc⟩
            cases c with
            | zero =>
                left
                simp [List.get?] at hc
                exact hc.1.symm
            | succ d => exact Or.inr (ih.mpr ⟨d, u, hc⟩)
      | finished o =>
          simp only [lockedIds]
          rw [ih]
          constructor
          · rintro ⟨c, u, hc⟩
            exact ⟨c + 1, u, hc⟩
          · rintro ⟨c, u, hc⟩
            cases c with
            | zero => simp [List.get?] at hc
            | succ d => exact ⟨d, u, hc⟩

theorem lt_of_get?_eq_some {α : Type} {l : List α} {n : Nat} {a : α}
    (h : l.get? n = some a) : n < l.length := by
  induction l generalizing n with
  | nil => simp [List.get?] at h
  | cons x rest ih =>
      cases n with
      | zero => simp
      | succ m =>
          exact Nat.succ_lt_succ (ih (by simpa [List.get?] using h))

theorem replicate_get?_eq {α : Type} {n c : Nat} {x w : α}
    (h : (List.replicate n x).get? c = some w) : w = x := by
  induction n generalizing c with
  | zero => simp [List.replicate, List.get?] at h
  | succ m ih =>
      cases c with
      | zero =>
          simp [List.replicate, List.get?] at h
          exact h.symm
      | succ d => exact ih (by simpa [List.replicate, List.get?] using h)

theorem isPending_status {r : JobRow} (h : isPending r = true) :
    r.status = "pending" := by
  simpa [isPending] using h

/-- Primary-key uniqueness: rows with the same id are the same row. -/
theorem row_eq_of_id_eq {db : JobsDb} (hnd : (db.map JobRow.id).Nodup)
    {r1 r2 : JobRow} (h1 : r1 ∈ db) (h2 : r2 ∈ db) (hid : r1.id = r2.id) :
    r1 = r2 :=
  List.inj_on_of_nodup_map hnd h1 h2 hid

/-- Invariant of the concurrent claim model, relative to the initial table:
rows only move from pending to running; distinct callers never claim the same
row; a held lock is on a pending row; a returned claim is a running row;
every claim originates from an initially-pending row; a running row was
either running initially or is claimed; a caller that returned empty saw no
unlocked pending row, and that stays true. -/
structure ClaimInv (init : JobsDb) (s : SysState) : Prop where
  idsEq : s.db.map JobRow.id = init.map JobRow.id
  rows : ∀ r ∈ s.db, ∃ r0 ∈ init, r0.id = r.id ∧ r0.url = r.url ∧
    (r = r0 ∨ (isPending r0 = true ∧ r.status = "running"))
  uniq : ∀ c1 c2 j, c1 ≠ c2 → claimAt s.workers c1 = some j →
    claimAt s.workers c2 = some j → False
  lockPend : ∀ c jid url, s.workers.get? c = some (.lockedOn jid url) →
    ∃ r ∈ s.db, r.id = jid ∧ r.url = url ∧ isPending r = true
  finRun : ∀ c jid url,
    s.workers.get? c = some (.finished (some (jid, url))) →
    ∃ r ∈ s.db, r.id = jid ∧ r.url = url ∧ r.status = "running"
  claimInit : ∀ c j, claimAt s.workers c = some j →
    ∃ r0 ∈ init, r0.id = j ∧ isPending r0 = true
  runClaim : ∀ r ∈ s.db, r.status = "running" →
    (∃ r0 ∈ init, r0.id = r.id ∧ r0.status = "running") ∨
    ∃ c, claimAt s.workers c = some r.id
  noneEmpty : ∀ c, s.workers.get? c = some (.finished none) →
    selectablePending s.db s.workers = []

theorem claimInv_init (init : JobsDb) (n : Nat) :
    ClaimInv init (initState init n) := by
  refine
    { idsEq := rfl
      rows := ?_
      uniq := ?_
      lockPend := ?_
      finRun := ?_
      claimInit := ?_
      runClaim := ?_
      noneEmpty := ?_ }
  · intro r hr
    exact ⟨r, hr, rfl, rfl, Or.inl rfl⟩
  · intro c1 c2 j _ h1 _
    unfold claimAt at h1
    cases hg : (initState init n).workers.get? c1 with
    | none => rw [hg] at h1; simp at h1
    | some w =>
        rw [hg] at h1
        have hw := replicate_get?_eq hg
        subst hw
        simp [claimOf] at h1
  · intro c jid url h
    have hw := replicate_get?_eq h
    exact absurd hw (by simp)
  · intro c jid url h
    have hw := replicate_get?_eq h
    exact absurd hw (by simp)
  · intro c j h
    unfold claimAt at h
    cases hg : (initState init n).workers.get? c with
    | none => rw [hg] at h; simp at h
    | some w =>
        rw [hg] at h
        have hw := replicate_get?_eq hg
        subst hw
        simp [claimOf] at h
  · intro r hr hrun
    exact Or.inl ⟨r, hr, rfl, hrun⟩
  · intro c h
    have hw := replicate_get?_eq h
    exact absurd hw (by simp)

theorem claimAt_set_self (ws : List Phase) (c : Nat) (ph : Phase)
    (h : c < ws.length) : claimAt (ws.set c ph) c = claimOf ph := by
  unfold claimAt
  rw [get?_set_self _ _ _ h]
  rfl

theorem claimAt_set_ne (ws : List Phase) (c c' : Nat) (ph : Phase)
    (h : c' ≠ c) : claimAt (ws.set c ph) c' = claimAt ws c' := by
  unfold claimAt
  rw [get?_set_ne _ _ _ _ (fun hh => h hh.symm)]

theorem claimInv_step {init : JobsDb} (hnd : (init.map JobRow.id).Nodup)
    {s : SysState} (hinv : ClaimInv init s) (c : Nat) :
    ClaimInv init (step s c) := by
  have hnd' : (s.db.map JobRow.id).Nodup := by rw [hinv.idsEq]; exact hnd
  cases hw : s.workers.get? c with
  | none =>
      have hstep : step s c = { s with time := s.time + 1 } := by
        unfold step; rw [hw]
      rw [hstep]
      exact ⟨hinv.idsEq, hinv.rows, hinv.uniq, hinv.lockPend, hinv.finRun,
        hinv.claimInit, hinv.runClaim, hinv.noneEmpty⟩
  | some w =>
    have hlt : c < s.workers.length := lt_of_get?_eq_some hw
    cases w with
    | finished o =>
        have hstep : step s c = { s with time := s.time + 1 } := by
          unfold step; rw [hw]
        rw [hstep]
        exact ⟨hinv.idsEq, hinv.rows, hinv.uniq, hinv.lockPend, hinv.finRun,
          hinv.claimInit, hinv.runClaim, hinv.noneEmpty⟩
    | idle =>
      cases hsel : minByKey (fun r => (0, r.id))
          (selectablePending s.db s.workers) with
      | some r =>
          have hstep : step s c =
              { s with workers := s.workers.set c (.lockedOn r.id r.url),
                       time := s.time + 1 } := by
            unfold step; rw [hw, hsel]
          rw [hstep]
          have hrsel := minByKey_mem hsel
          have hrdb : r ∈ s.db := (List.mem_filter.mp hrsel).1
          have hsplit : isPending r = true ∧ r.id ∉ lockedIds s.workers := by
            have h := (List.mem_filter.mp hrsel).2
            simp only [Bool.and_eq_true, Bool.not_eq_true',
              decide_eq_false_iff_not] at h
            exact h
          have hcl_c : claimAt (s.workers.set c (.lockedOn r.id r.url)) c =
              some r.id := by
            rw [claimAt_set_self _ _ _ hlt]; rfl
          have hfresh : ∀ c', claimAt s.workers c' = some r.id → False := by
            intro c' hc'
            unfold claimAt at hc'
            cases hg : s.workers.get? c' with
            | none => rw [hg] at hc'; simp at hc'
            | some w' =>
                rw [hg] at hc'
                cases w' with
                | idle => simp [claimOf] at hc'
                | lockedOn j2 u2 =>
                    simp [claimOf] at hc'
                    subst hc'
                    exact hsplit.2 ((lockedIds_mem _ _).mpr ⟨c', u2, hg⟩)
                | finished o =>
                    cases o with
                    | none => simp [claimOf] at hc'
                    | some p =>
                        obtain ⟨j2, u2⟩ := p
                        simp [claimOf] at hc'
                        subst hc'
                        obtain ⟨rr, hrrdb, hrrid, hrrurl, hrrrun⟩ :=
                          hinv.finRun c' r.id u2 hg
                        have hreq : rr = r :=
                          row_eq_of_id_eq hnd' hrrdb hrdb hrrid
                        rw [hreq] at hrrrun
                        rw [isPending_status hsplit.1] at hrrrun
                        simp at hrrrun
          refine
            { idsEq := hinv.idsEq
              rows := hinv.rows
              uniq := ?_
              lockPend := ?_
              finRun := ?_
              claimInit := ?_
              runClaim := ?_
              noneEmpty := ?_ }
          · intro c1 c2 j hne h1 h2
            by_cases hc1 : c1 = c
            · subst hc1
              rw [hcl_c] at h1
              have hj : j = r.id := (Option.some.inj h1).symm
              subst hj
              have hc2 : c2 ≠ c1 := fun hh => hne hh.symm
              rw [claimAt_set_ne _ _ _ _ hc2] at h2
              exact hfresh c2 h2
            · by_cases hc2 : c2 = c
              · subst hc2
                rw [hcl_c] at h2
                have hj : j = r.id := (Option.some.inj h2).symm
                subst hj
                rw [claimAt_set_ne _ _ _ _ hc1] at h1
                exact hfresh c1 h1
              · rw [claimAt_set_ne _ _ _ _ hc1] at h1
                rw [claimAt_set_ne _ _ _ _ hc2] at h2
                exact hinv.uniq c1 c2 j hne h1 h2
          · intro c' jid2 url2 hgl
            by_cases hc' : c' = c
            · subst hc'
              rw [get?_set_self _ _ _ hlt] at hgl
              have h1 := Option.some.inj hgl
              cases h1
              exact ⟨r, hrdb, rfl, rfl, hsplit.1⟩
            · rw [get?_set_ne _ _ _ _ (fun hh => hc' hh.symm)] at hgl
              exact hinv.lockPend c' jid2 url2 hgl
          · intro c' jid2 url2 hgf
            by_cases hc' : c' = c
            · subst hc'
              rw [get?_set_self _ _ _ hlt] at hgf
              simp at hgf
            · rw [get?_set_ne _ _ _ _ (fun hh => hc' hh.symm)] at hgf
              exact hinv.finRun c' jid2 url2 hgf
          · intro c' j hcj
            by_cases hc' : c' = c
            · subst hc'
              rw [hcl_c] at hcj
              have hj : r.id = j := Option.some.inj hcj
              obtain ⟨r0, hr0, hid0, _, hdisj⟩ := hinv.rows r hrdb
              refine ⟨r0, hr0, by rw [hid0]; exact hj, ?_⟩
              rcases hdisj with hre | hp
              · rw [← hre]; exact hsplit.1
              · exact hp.1
            · rw [claimAt_set_ne _ _ _ _ hc'] at hcj
              exact hinv.claimInit c' j hcj
          · intro r' hr' hrun'
            rcases hinv.runClaim r' hr' hrun' with h | ⟨c'', hc''⟩
            · exact Or.inl h
            · by_cases hcc : c'' = c
              · subst hcc
                unfold claimAt at hc''
                rw [hw] at hc''
                simp [claimOf] at hc''
              · exact Or.inr ⟨c'', by
                  rw [claimAt_set_ne _ _ _ _ hcc]; exact hc''⟩
          · intro c' hgn
            by_cases hc' : c' = c
            · subst hc'
              rw [get?_set_self _ _ _ hlt] at hgn
              simp at hgn
            · rw [get?_set_ne _ _ _ _ (fun hh => hc' hh.symm)] at hgn
              have hempty := hinv.noneEmpty c' hgn
              rw [hempty] at hrsel
              simp at hrsel
      | none =>
          have hstep : step s c =
              { s with workers := s.workers.set c (.finished none),
                       time := s.time + 1 } := by
            unfold step; rw [hw, hsel]
          rw [hstep]
          have hempty : selectablePending s.db s.workers = [] :=
            minByKey_none hsel
          have hlockmono : ∀ j, j ∈ lockedIds s.workers →
              j ∈ lockedIds (s.workers.set c (.finished none)) := by
            intro j hj
            obtain ⟨c'', u, hg⟩ := (lockedIds_mem _ _).mp hj
            by_cases hcc : c'' = c
            · subst hcc
              rw [hw] at hg
              simp at hg
            · refine (lockedIds_mem _ _).mpr ⟨c'', u, ?_⟩
              rw [get?_set_ne _ _ _ _ (fun hh => hcc hh.symm)]
              exact hg
          have hempty' :
              selectablePending s.db (s.workers.set c (.finished none)) = [] := by
            apply List.filter_eq_nil_iff.mpr
            intro r hr hpred
            simp only [Bool.and_eq_true, Bool.not_eq_true',
              decide_eq_false_iff_not] at hpred
            have hmem : r ∈ selectablePending s.db s.workers := by
              refine List.mem_filter.mpr ⟨hr, ?_⟩
              simp only [Bool.and_eq_true, Bool.not_eq_true',
                decide_eq_false_iff_not]
              exact ⟨hpred.1, fun hmem => hpred.2 (hlockmono _ hmem)⟩
            rw [hempty] at hmem
            simp at hmem
          have hcl_c : claimAt (s.workers.set c (.finished none)) c = none := by
            rw [claimAt_set_self _ _ _ hlt]; rfl
          refine
            { idsEq := hinv.idsEq
              rows := hinv.rows
              uniq := ?_
              lockPend := ?_
              finRun := ?_
              claimInit := ?_
              runClaim := ?_
              noneEmpty := fun _ _ => hempty' }
          · intro c1 c2 j hne h1 h2
            by_cases hc1 : c1 = c
            · subst hc1; rw [hcl_c] at h1; simp at h1
            · by_cases hc2 : c2 = c
              · subst hc2; rw [hcl_c] at h2; simp at h2
              · rw [claimAt_set_ne _ _ _ _ hc1] at h1
                rw [claimAt_set_ne _ _ _ _ hc2] at h2
                exact hinv.uniq c1 c2 j hne h1 h2
          · intro c' jid2 url2 hgl
            by_cases hc' : c' = c
            · subst hc'
              rw [get?_set_self _ _ _ hlt] at hgl
              simp at hgl
            · rw [get?_set_ne _ _ _ _ (fun hh => hc' hh.symm)] at hgl
              exact hinv.lockPend c' jid2 url2 hgl
          · intro c' jid2 url2 hgf
            by_cases hc' : c' = c
            · subst hc'
              rw [get?_set_self _ _ _ hlt] at hgf
              simp at hgf
            · rw [get?_set_ne _ _ _ _ (fun hh => hc' hh.symm)] at hgf
              exact hinv.finRun c' jid2 url2 hgf
          · intro c' j hcj
            by_cases hc' : c' = c
            · subst hc'; rw [hcl_c] at hcj; simp at hcj
            · rw [claimAt_set_ne _ _ _ _ hc'] at hcj
              exact hinv.claimInit c' j hcj
          · intro r' hr' hrun'
            rcases hinv.runClaim r' hr' hrun' with h | ⟨c'', hc''⟩
            · exact Or.inl h
            · by_cases hcc : c'' = c
              · subst hcc
                unfold claimAt at hc''
                rw [hw] at hc''
                simp [claimOf] at hc''
              · exact Or.inr ⟨c'', by
                  rw [claimAt_set_ne _ _ _ _ hcc]; exact hc''⟩
    | lockedOn jid url =>
      have hstep : step s c =
          { db := s.db.map (fun x =>
              if x.id == jid then
                { x with status := "running", startedAt := some s.time }
              else x),
            workers := s.workers.set c (.finished (some (jid, url))),
            time := s.time + 1 } := by
        unfold step; rw [hw]
      rw [hstep]
      obtain ⟨rp, hrpdb, hrpid, hrpurl, hrppend⟩ := hinv.lockPend c jid url hw
      have hclaim_c : claimAt s.workers c = some jid := by
        unfold claimAt; rw [hw]; rfl
      have hclaims : ∀ c',
          claimAt (s.workers.set c (.finished (some (jid, url)))) c' =
          claimAt s.workers c' := by
        intro c'
        by_cases hc' : c' = c
        · subst hc'
          rw [claimAt_set_self _ _ _ hlt, hclaim_c]
          rfl
        · exact claimAt_set_ne _ _ _ _ hc'
      have hfid : ∀ x : JobRow,
          ((if x.id == jid then
            { x with status := "running", startedAt := some s.time }
          else x) : JobRow).id = x.id := by
        intro x
        by_cases h : x.id = jid
        · rw [if_pos (by simpa using h)]
        · rw [if_neg (by simpa using h)]
      refine
        { idsEq := ?_
          rows := ?_
          uniq := ?_
          lockPend := ?_
          finRun := ?_
          claimInit := ?_
          runClaim := ?_
          noneEmpty := ?_ }
      · show (s.db.map _).map JobRow.id = init.map JobRow.id
        rw [List.map_map, ← hinv.idsEq]
        exact List.map_congr_left (fun x _ => hfid x)
      · intro r' hr'
        obtain ⟨x, hx, hfx⟩ := List.mem_map.mp hr'
        by_cases hxid : x.id = jid
        · rw [if_pos (by simpa using hxid)] at hfx
          have hxrp : x = rp :=
            row_eq_of_id_eq hnd' hx hrpdb (by rw [hxid, hrpid])
          obtain ⟨r0, hr0, hid0, hurl0, hdisj⟩ := hinv.rows x hx
          refine ⟨r0, hr0, by rw [← hfx]; exact hid0,
            by rw [← hfx]; exact hurl0, Or.inr ⟨?_, by rw [← hfx]⟩⟩
          rcases hdisj with hre | hp
          · rw [← hre, hxrp]; exact hrppend
          · exact hp.1
        · rw [if_neg (by simpa using hxid)] at hfx
          rw [← hfx]
          exact hinv.rows x hx
      · intro c1 c2 j hne h1 h2
        rw [hclaims c1] at h1
        rw [hclaims c2] at h2
        exact hinv.uniq c1 c2 j hne h1 h2
      · intro c' jid2 url2 hgl
        by_cases hc' : c' = c
        · subst hc'
          rw [get?_set_self _ _ _ hlt] at hgl
          simp at hgl
        · rw [get?_set_ne _ _ _ _ (fun hh => hc' hh.symm)] at hgl
          obtain ⟨rr, hrrdb, hrrid, hrrurl, hrrpend⟩ :=
            hinv.lockPend c' jid2 url2 hgl
          by_cases hrrjid : rr.id = jid
          · exfalso
            have hcl' : claimAt s.workers c' = some jid := by
              unfold claimAt
              rw [hgl]
              simp [claimOf]
              rw [← hrrid, hrrjid]
            exact hinv.uniq c' c jid hc' hcl' hclaim_c
          · exact ⟨rr, List.mem_map.mpr
              ⟨rr, hrrdb, if_neg (by simpa using hrrjid)⟩,
              hrrid, hrrurl, hrrpend⟩
      · intro c' jid2 url2 hgf
        by_cases hc' : c' = c
        · subst hc'
          rw [get?_set_self _ _ _ hlt] at hgf
          simp only [Option.some.injEq, Phase.finished.injEq,
            Option.some.injEq, Prod.mk.injEq] at hgf
          obtain ⟨hj2, hu2⟩ := hgf
          exact ⟨{ rp with status := "running", startedAt := some s.time },
            List.mem_map.mpr ⟨rp, hrpdb, if_pos (by simpa using hrpid)⟩,
            hrpid.trans hj2, hrpurl.trans hu2, rfl⟩
        · rw [get?_set_ne _ _ _ _ (fun hh => hc' hh.symm)] at hgf
          obtain ⟨rr, hrrdb, hrrid, hrrurl, hrrrun⟩ :=
            hinv.finRun c' jid2 url2 hgf
          by_cases hrrjid : rr.id = jid
          · exact ⟨{ rr with status := "running", startedAt := some s.time },
              List.mem_map.mpr ⟨rr, hrrdb, if_pos (by simpa using hrrjid)⟩,
              hrrid, hrrurl, rfl⟩
          · exact ⟨rr, List.mem_map.mpr
              ⟨rr, hrrdb, if_neg (by simpa using hrrjid)⟩,
              hrrid, hrrurl, hrrrun⟩
      · intro c' j hcj
        rw [hclaims c'] at hcj
        exact hinv.claimInit c' j hcj
      · intro r' hr' hrun'
        obtain ⟨x, hx, hfx⟩ := List.mem_map.mp hr'
        by_cases hxid : x.id = jid
        · rw [if_pos (by simpa using hxid)] at hfx
          refine Or.inr ⟨c, ?_⟩
          rw [hclaims c, hclaim_c, ← hfx]
          show some jid = some x.id
          rw [hxid]
        · rw [if_neg (by simpa using hxid)] at hfx
          rw [← hfx] at hrun' ⊢
          rcases hinv.runClaim x hx hrun' with h | ⟨c'', hc''⟩
          · exact Or.inl h
          · exact Or.inr ⟨c'', by rw [hclaims c'']; exact hc''⟩
      · intro c' hgn
        by_cases hc' : c' = c
        · subst hc'
          rw [get?_set_self _ _ _ hlt] at hgn
          simp at hgn
        · rw [get?_set_ne _ _ _ _ (fun hh => hc' hh.symm)] at hgn
          have hempty0 := hinv.noneEmpty c' hgn
          apply List.filter_eq_nil_iff.mpr
          intro r' hr' hpred
          simp only [Bool.and_eq_true, Bool.not_eq_true',
            decide_eq_false_iff_not] at hpred
          obtain ⟨x, hx, hfx⟩ := List.mem_map.mp hr'
          by_cases hxid : x.id = jid
          · rw [if_pos (by simpa using hxid)] at hfx
            have : isPending r' = false := by
              rw [← hfx]
              simp [isPending]
            rw [this] at hpred
            simp at hpred
          · rw [if_neg (by simpa using hxid)] at hfx
            have hxunlocked : x.id ∉ lockedIds s.workers := by
              intro hmem
              obtain ⟨c2, u2, hg2⟩ := (lockedIds_mem _ _).mp hmem
              by_cases hc2 : c2 = c
              · subst hc2
                rw [hw] at hg2
                simp at hg2
                exact hxid hg2.1.symm
              · apply hpred.2
                rw [← hfx]
                refine (lockedIds_mem _ _).mpr ⟨c2, u2, ?_⟩
                rw [get?_set_ne _ _ _ _ (fun hh => hc2 hh.symm)]
                exact hg2
            have hmem : x ∈ selectablePending s.db s.workers := by
              refine List.mem_filter.mpr ⟨hx, ?_⟩
              simp only [Bool.and_eq_true, Bool.not_eq_true',
                decide_eq_false_iff_not]
              exact ⟨by rw [hfx]; exact hpred.1, hxunlocked⟩
            rw [hempty0] at hmem
            simp at hmem

theorem claimInv_run {init : JobsDb} (hnd : (init.map JobRow.id).Nodup)
    {s : SysState} (hinv : ClaimInv init s) (sched : List Nat) :
    ClaimInv init (run s sched) := by
  induction sched generalizing s with
  | nil => exact hinv
  | cons c rest ih => exact ih (claimInv_step hnd hinv c)

theorem step_workers_length (s : SysState) (c : Nat) :
    (step s c).workers.length = s.workers.length := by
  unfold step
  cases hw : s.workers.get? c with
  | none => rfl
  | some w =>
      cases w with
      | idle =>
          cases minByKey (fun r => (0, r.id))
              (selectablePending s.db s.workers) <;>
            simp [List.length_set]
      | lockedOn j u => simp [List.length_set]
      | finished o => rfl

theorem run_workers_length (s : SysState) (sched : List Nat) :
    (run s sched).workers.length = s.workers.length := by
  induction sched generalizing s with
  | nil => rfl
  | cons c rest ih =>
      exact (ih (step s c)).trans (step_workers_length s c)

theorem length_filterMap_of_all_some {α β : Type} (f : α → Option β)
    (l : List α) (h : ∀ a ∈ l, (f a).isSome) :
    (l.filterMap f).length = l.length := by
  induction l with
  | nil => rfl
  | cons a rest ih =>
      have ha := h a (List.mem_cons_self a rest)
      cases hfa : f a with
      | none => rw [hfa] at ha; simp at ha
      | some b =>
          rw [List.filterMap_cons, hfa]
          simp only [List.length_cons]
          rw [ih (fun x hx => h x (List.mem_cons_of_mem a hx))]

/-- C3: with the row lock and skip-locked semantics, for any number of
concurrent callers and any interleaving: (a) two distinct callers never claim
the same job; (b) a committed claim set the row running with `started_at`
filled, in the same transaction, starting from a pending row; (c) once every
caller has finished, if there were fewer pending jobs than callers, every
initially-pending job has been claimed by exactly one caller. -/
theorem C3_claim_exclusivity (init : JobsDb) (n : Nat) (sched : List Nat)
    (hnd : (init.map JobRow.id).Nodup) :
    (∀ c1 c2 j, c1 ≠ c2 →
      claimAt (run (initState init n) sched).workers c1 = some j →
      claimAt (run (initState init n) sched).workers c2 = some j → False) ∧
    (∀ c jid url, (run (initState init n) sched).workers.get? c =
        some (.finished (some (jid, url))) →
      (∃ r0 ∈ init, r0.id = jid ∧ isPending r0 = true) ∧
      ∃ r ∈ (run (initState init n) sched).db,
        r.id = jid ∧ r.url = url ∧ r.status = "running") ∧
    ((∀ c, c < n → ∃ o, (run (initState init n) sched).workers.get? c =
        some (.finished o)) →
      (init.filter isPending).length < n →
      ∀ r ∈ init, isPending r = true →
        ∃ c, claimAt (run (initState init n) sched).workers c = some r.id ∧
          ∀ c', claimAt (run (initState init n) sched).workers c' =
            some r.id → c' = c) := by
  have hinv : ClaimInv init (run (initState init n) sched) :=
    claimInv_run hnd (claimInv_init init n) sched
  have hwlen : (run (initState init n) sched).workers.length = n := by
    rw [run_workers_length]
    simp [initState]
  refine ⟨hinv.uniq, ?_, ?_⟩
  · intro c jid url hg
    refine ⟨?_, hinv.finRun c jid url hg⟩
    have hclaim : claimAt (run (initState init n) sched).workers c =
        some jid := by
      unfold claimAt
      rw [hg]
      rfl
    exact hinv.claimInit c jid hclaim
  · intro hfin hcount r hr hrp
    by_contra hnone
    push_neg at hnone
    -- hnone : ∀ c, claim ≠ some r.id ∨ witness uniqueness fails; reshape below
    have hnoclaim : ∀ c, claimAt (run (initState init n) sched).workers c ≠
        some r.id := by
      intro c hc
      rcases hnone c hc with ⟨c', hc', hne⟩
      exact hne (by
        by_contra hcc
        exact hinv.uniq c' c r.id hcc hc' hc)
    -- the row of r in the final table is r itself, still pending
    have hidmem : r.id ∈ (run (initState init n) sched).db.map JobRow.id := by
      rw [hinv.idsEq]
      exact List.mem_map_of_mem JobRow.id hr
    obtain ⟨r', hr', hid'⟩ := List.mem_map.mp hidmem
    have hnotrun : r'.status ≠ "running" := by
      intro hrun
      rcases hinv.runClaim r' hr' hrun with ⟨r0, hr0, hid0, hrun0⟩ | ⟨c, hc⟩
      · have : r0 = r := row_eq_of_id_eq hnd hr0 hr (by rw [hid0, hid'])
        rw [this] at hrun0
        rw [isPending_status hrp] at hrun0
        simp at hrun0
      · exact hnoclaim c (by rw [hc, hid'])
    have hr'eq : r' = r := by
      obtain ⟨r0, hr0, hid0, _, hdisj⟩ := hinv.rows r' hr'
      rcases hdisj with hre | hp
      · have : r0 = r := row_eq_of_id_eq hnd hr0 hr (by rw [hid0, hid'])
        rw [hre, this]
      · exact absurd hp.2 hnotrun
    -- every caller finished, so no locks are held
    have hnolock : ∀ j, j ∉ lockedIds (run (initState init n) sched).workers := by
      intro j hj
      obtain ⟨c, u, hg⟩ := (lockedIds_mem _ _).mp hj
      have hlt : c < n := by
        rw [← hwlen]
        exact lt_of_get?_eq_some hg
      obtain ⟨o, ho⟩ := hfin c hlt
      rw [hg] at ho
      simp at ho
    have hsel : r ∈ selectablePending (run (initState init n) sched).db
        (run (initState init n) sched).workers := by
      refine List.mem_filter.mpr ⟨hr'eq ▸ hr', ?_⟩
      simp only [Bool.and_eq_true, Bool.not_eq_true', decide_eq_false_iff_not]
      exact ⟨hrp, hnolock r.id⟩
    by_cases hfinnone : ∃ c, c < n ∧
        (run (initState init n) sched).workers.get? c = some (.finished none)
    · obtain ⟨c, _, hg⟩ := hfinnone
      have hempty := hinv.noneEmpty c hg
      rw [hempty] at hsel
      simp at hsel
    · push_neg at hfinnone
      -- every caller finished with some claim: pigeonhole
      have hallsome : ∀ i ∈ List.range n,
          (claimAt (run (initState init n) sched).workers i).isSome := by
        intro i hi
        have hlt := List.mem_range.mp hi
        obtain ⟨o, ho⟩ := hfin i hlt
        cases o with
        | none => exact absurd ho (hfinnone i hlt)
        | some p =>
            unfold claimAt
            rw [ho]
            simp [claimOf]
      have hlen : ((List.range n).filterMap
          (claimAt (run (initState init n) sched).workers)).length = n := by
        rw [length_filterMap_of_all_some _ _ hallsome, List.length_range]
      have hnodupclaims : ((List.range n).filterMap
          (claimAt (run (initState init n) sched).workers)).Nodup := by
        refine List.Nodup.filterMap ?_ (List.nodup_range n)
        intro a a' b hb hb'
        by_contra hne
        exact hinv.uniq a a' b hne (Option.mem_def.mp hb) (Option.mem_def.mp hb')
      have hsubset : ((List.range n).filterMap
          (claimAt (run (initState init n) sched).workers)) ⊆
          (init.filter isPending).map JobRow.id := by
        intro j hj
        obtain ⟨i, _, hji⟩ := List.mem_filterMap.mp hj
        obtain ⟨r0, hr0, hid0, hp0⟩ := hinv.claimInit i j hji
        exact List.mem_map.mpr
          ⟨r0, List.mem_filter.mpr ⟨hr0, by simpa using hp0⟩, hid0⟩
      have hle := (List.subperm_of_subset hnodupclaims hsubset).length_le
      rw [hlen, List.length_map] at hle
      exact absurd hcount (by omega)

/-- Sample table for the C3 witness: one pending job, two callers racing. -/
def claimDemoDb : JobsDb :=
  [{ id := 1, url := "a", status := "pending", createdAt := 0,
     startedAt := none, finishedAt := none, resultJson := .empty,
     error := none }]

/-- Witness for C3: two callers, one pending job, schedule where caller 0
locks and commits and caller 1 then finds nothing. -/
theorem C3_claim_exclusivity_witness :
    (∀ c1 c2 j, c1 ≠ c2 →
      claimAt (run (initState claimDemoDb 2) [0, 0, 1]).workers c1 = some j →
      claimAt (run (initState claimDemoDb 2) [0, 0, 1]).workers c2 = some j →
        False) ∧
    (∀ c jid url, (run (initState claimDemoDb 2) [0, 0, 1]).workers.get? c =
        some (.finished (some (jid, url))) →
      (∃ r0 ∈ claimDemoDb, r0.id = jid ∧ isPending r0 = true) ∧
      ∃ r ∈ (run (initState claimDemoDb 2) [0, 0, 1]).db,
        r.id = jid ∧ r.url = url ∧ r.status = "running") ∧
    ((∀ c, c < 2 →
        ∃ o, (run (initState claimDemoDb 2) [0, 0, 1]).workers.get? c =
          some (.finished o)) →
      (claimDemoDb.filter isPending).length < 2 →
      ∀ r ∈ claimDemoDb, isPending r = true →
        ∃ c, claimAt (run (initState claimDemoDb 2) [0, 0, 1]).workers c =
            some r.id ∧
          ∀ c', claimAt (run (initState claimDemoDb 2) [0, 0, 1]).workers c' =
            some r.id → c' = c) :=
  C3_claim_exclusivity claimDemoDb 2 [0, 0, 1] (by decide)

/-! Chat history store (`pg_store.save_chat_message`, `get_chat_history`)
and the data carried by the two chat orchestrators. -/

/-- A Qdrant search hit (dataclass `SearchResult` in
`backend/vector_utils/qdrant_client.py`). Python floats are rationals. -/
structure SearchResult where
  chunk_id : String
  score : ℚ
  chunk_text : String
  paragraph_summary : Option String
  video_title : String
  video_path : Option String
  video_id : Option String
  language : String
  start_time : ℚ
  end_time : ℚ
  source_type : String
  deriving DecidableEq, Repr

/-- The metadata sub-dict of one entry of `references` built by
`qdrant_chat`. -/
structure RefMeta where
  video_title : String
  video_path : Option String
  video_id : Option String
  start_time : ℚ
  end_time : ℚ
  summary : Option String
  language : String
  source_type : String
  deriving DecidableEq, Repr

/-- One entry of the `references` list returned by `qdrant_chat`. -/
structure Reference where
  chunk_text : String
  score : ℚ
  metadata : RefMeta
  deriving DecidableEq, Repr

/-- The reference dict `qdrant_chat` builds from a hit. -/
def refOfResult (r : SearchResult) : Reference :=
  { chunk_text := r.chunk_text, score := r.score,
    metadata :=
      { video_title := r.video_title, video_path := r.video_path,
        video_id := r.video_id, start_time := r.start_time,
        end_time := r.end_time, summary := r.paragraph_summary,
        language := r.language, source_type := r.source_type } }

/-- Metadata of one item returned by the pgvector knowledge search, as read
by `chat_with_rag` (`doc["metadata"]`). Fields the verified claims never
observe (`static_url` enrichment, transcript id coercions) are omitted. -/
structure DocMeta where
  video_path : Option String
  mtype : Option String
  start_time : ℚ
  end_time : ℚ
  deriving DecidableEq, Repr

/-- One item of the knowledge-base search results (`doc["document"]`,
`doc["metadata"]`). -/
structure Doc where
  document : String
  metadata : DocMeta
  deriving DecidableEq, Repr

/-- Metadata stored with a chat turn (`chat_history.metadata` JSONB): NULL
for a qdrant user turn, the reference list for a qdrant assistant turn, the
`n_results` dict for a knowledge-base user turn, the count-and-references
dict for a knowledge-base assistant turn. -/
inductive ChatMeta where
  | null
  | qdrantRefs (refs : List Reference)
  | ksUser (nResults : Nat)
  | ksAssistant (count : Nat) (refs : List Doc)
  deriving DecidableEq, Repr

/-- One row of the `chat_history` table. -/
structure ChatRow where
  id : Nat
  session_id : String
  role : String
  content : String
  metadata : ChatMeta
  created_at : Nat
  deriving DecidableEq, Repr

abbrev ChatDb := List ChatRow

/-- Next SERIAL id. -/
def nextChatId (db : ChatDb) : Nat :=
  (db.map (fun r => r.id)).foldl Nat.max 0 + 1

/-- Embeds `pg_store.save_chat_message`: INSERT one row, `created_at`
defaulting to the clock passed in. -/
def save_chat_message (db : ChatDb) (sid role content : String)
    (metadata : ChatMeta) (now : Nat) : ChatDb :=
  db ++ [{ id := nextChatId db, session_id := sid, role := role,
           content := content, metadata := metadata, created_at := now }]

/-- Stable insertion of a row into a list ascending by `created_at`: the row
goes after every strictly-older row and before rows with the same or a later
timestamp. -/
def insertSorted (r : ChatRow) : List ChatRow → List ChatRow
  | [] => [r]
  | x :: rest =>
      if x.created_at < r.created_at then x :: insertSorted r rest
      else r :: x :: rest

/-- Stable ascending sort by `created_at` (the model of
`ORDER BY created_at ASC`; SQL leaves equal timestamps unordered, the model
keeps table order). -/
def sortByTime : List ChatRow → List ChatRow
  | [] => []
  | x :: rest => insertSorted x (sortByTime rest)

/-- Embeds `pg_store.get_chat_history`:
`WHERE session_id = %s ORDER BY created_at ASC LIMIT %s` — the limit cuts
the list after the ascending sort. -/
def get_chat_history (db : ChatDb) (sid : String) (limit : Nat) :
    List ChatRow :=
  (sortByTime (db.filter (fun r => r.session_id == sid))).take limit

theorem insertSorted_perm (r : ChatRow) (l : List ChatRow) :
    (insertSorted r l).Perm (r :: l) := by
  induction l with
  | nil => exact List.Perm.refl _
  | cons x rest ih =>
      simp only [insertSorted]
      by_cases hlt : x.created_at < r.created_at
      · rw [if_pos hlt]
        exact (ih.cons x).trans (List.Perm.swap r x rest)
      · rw [if_neg hlt]

theorem sortByTime_perm (l : List ChatRow) : (sortByTime l).Perm l := by
  induction l with
  | nil => exact List.Perm.refl _
  | cons x rest ih =>
      exact (insertSorted_perm x (sortByTime rest)).trans (ih.cons x)

theorem pairwise_insertSorted (r : ChatRow) (l : List ChatRow)
    (h : List.Pairwise (fun a b : ChatRow => a.created_at ≤ b.created_at) l) :
    List.Pairwise (fun a b : ChatRow => a.created_at ≤ b.created_at)
      (insertSorted r l) := by
  induction l with
  | nil => simp [insertSorted]
  | cons x rest ih =>
      obtain ⟨hx, hrest⟩ := List.pairwise_cons.mp h
      simp only [insertSorted]
      by_cases hlt : x.created_at < r.created_at
      · rw [if_pos hlt]
        refine List.pairwise_cons.mpr ⟨?_, ih hrest⟩
        intro y hy
        rcases List.mem_cons.mp ((insertSorted_perm r rest).mem_iff.mp hy)
          with hyy | hyy
        · rw [hyy]; exact Nat.le_of_lt hlt
        · exact hx y hyy
      · rw [if_neg hlt]
        refine List.pairwise_cons.mpr ⟨?_, h⟩
        intro y hy
        have hrx : r.created_at ≤ x.created_at := Nat.le_of_not_lt hlt
        rcases List.mem_cons.mp hy with hyy | hyy
        · rw [hyy]; exact hrx
        · exact Nat.le_trans hrx (hx y hyy)

theorem sortByTime_sorted (l : List ChatRow) :
    List.Pairwise (fun a b : ChatRow => a.created_at ≤ b.created_at)
      (sortByTime l) := by
  induction l with
  | nil => simp [sortByTime]
  | cons x rest ih => exact pairwise_insertSorted x (sortByTime rest) ih

/-- C10: `get_chat_history` sorts the session's turns ascending by
`created_at` and applies the limit after that sort: the result is the prefix
of the ascending order, it is ascending, every returned turn is no newer
than every omitted one, and (ids being unique) the omitted most-recent turns
are not in the result. -/
theorem C10_get_chat_history_keeps_earliest (db : ChatDb) (sid : String)
    (limit : Nat)
    (hnd : ((db.filter (fun r => r.session_id == sid)).map ChatRow.id).Nodup) :
    get_chat_history db sid limit =
      (sortByTime (db.filter (fun r => r.session_id == sid))).take limit ∧
    List.Pairwise (fun a b => a.created_at ≤ b.created_at)
      (get_chat_history db sid limit) ∧
    (∀ x ∈ get_chat_history db sid limit,
      ∀ y ∈ (sortByTime (db.filter (fun r => r.session_id == sid))).drop limit,
        x.created_at ≤ y.created_at) ∧
    (∀ y ∈ (sortByTime (db.filter (fun r => r.session_id == sid))).drop limit,
      y ∉ get_chat_history db sid limit) := by
  have hsorted := sortByTime_sorted (db.filter (fun r => r.session_id == sid))
  have happ : List.Pairwise (fun a b : ChatRow => a.created_at ≤ b.created_at)
      (((sortByTime (db.filter (fun r => r.session_id == sid))).take limit) ++
        ((sortByTime (db.filter (fun r => r.session_id == sid))).drop
          limit)) := by
    rw [List.take_append_drop]
    exact hsorted
  have hsplit := List.pairwise_append.mp happ
  refine ⟨rfl, ?_, ?_, ?_⟩
  · exact hsorted.sublist (List.take_sublist limit _)
  · intro x hx y hy
    exact hsplit.2.2 x hx y hy
  · have hndrows : (sortByTime
        (db.filter (fun r => r.session_id == sid))).Nodup :=
      ((sortByTime_perm _).nodup_iff).mpr (List.Nodup.of_map _ hnd)
    have hdis := List.disjoint_take_drop (l :=
        sortByTime (db.filter (fun r => r.session_id == sid)))
      hndrows (Nat.le_refl limit)
    intro y hy hmem
    exact hdis hmem hy

/-- Sample history for the C10 witness: three turns, limit 2 — the earliest
two come back, the most recent is omitted. -/
def historyDemoDb : ChatDb :=
  [{ id := 1, session_id := "s", role := "user", content := "q1",
     metadata := .null, created_at := 10 },
   { id := 2, session_id := "s", role := "assistant", content := "a1",
     metadata := .null, created_at := 11 },
   { id := 3, session_id := "s", role := "user", content := "q2",
     metadata := .null, created_at := 12 }]

/-- Witness for C10 at the concrete three-turn history. -/
theorem C10_get_chat_history_keeps_earliest_witness :
    get_chat_history historyDemoDb "s" 2 =
      (sortByTime (historyDemoDb.filter (fun r => r.session_id == "s"))).take
        2 ∧
    List.Pairwise (fun a b => a.created_at ≤ b.created_at)
      (get_chat_history historyDemoDb "s" 2) ∧
    (∀ x ∈ get_chat_history historyDemoDb "s" 2,
      ∀ y ∈ (sortByTime
          (historyDemoDb.filter (fun r => r.session_id == "s"))).drop 2,
        x.created_at ≤ y.created_at) ∧
    (∀ y ∈ (sortByTime
        (historyDemoDb.filter (fun r => r.session_id == "s"))).drop 2,
      y ∉ get_chat_history historyDemoDb "s" 2) :=
  C10_get_chat_history_keeps_earliest historyDemoDb "s" 2 (by decide)

/-! Context formatter (`backend/rag_utils/context_formatter.py`). Python
floats are rationals; `%.2f` is fixed-point rounding half-to-even; `02d` is
zero-padding to width two. -/

/-- Zero-pad a digit string to width `w`. -/
def padZeros (s : String) (w : Nat) : String :=
  if s.length < w then String.mk (List.replicate (w - s.length) '0') ++ s
  else s

/-- Python `f"{n:02d}"`. -/
def pyFmt02d (n : Int) : String :=
  if n < 0 then "-" ++ padZeros (Nat.repr n.natAbs) 1
  else padZeros (Nat.repr n.natAbs) 2

/-- Python `round` to integer, half to even, on an exact rational. -/
def pyRoundHalfEven (q : ℚ) : Int :=
  let f := q.floor
  let frac := q - (f : ℚ)
  if frac < 1/2 then f
  else if (1 : ℚ)/2 < frac then f + 1
  else if f % 2 = 0 then f else f + 1

/-- Python `f"{q:.{nd}f}"` on an exact rational. -/
def pyFixed (nd : Nat) (q : ℚ) : String :=
  let n := pyRoundHalfEven (q * ((10 ^ nd : Nat) : ℚ))
  let sign := if n < 0 then "-" else ""
  let a := n.natAbs
  sign ++ Nat.repr (a / 10 ^ nd) ++ "." ++ padZeros (Nat.repr (a % 10 ^ nd)) nd

/-- Python `sep.join(parts)`. -/
def joinSep (sep : String) : List String → String
  | [] => ""
  | [a] => a
  | a :: b :: rest => a ++ sep ++ joinSep sep (b :: rest)

/-- Embeds `format_timestamp`: seconds to `HH:MM:SS` via floor division and
modulo, each piece rendered `02d`. -/
def format_timestamp (seconds : ℚ) : String :=
  let hours : Int := (seconds / 3600).floor
  let minutes : Int := ((seconds - 3600 * ((seconds / 3600).floor : ℚ)) / 60).floor
  let secs : Int := (seconds - 60 * ((seconds / 60).floor : ℚ)).floor
  pyFmt02d hours ++ ":" ++ pyFmt02d minutes ++ ":" ++ pyFmt02d secs

def ragContextHeader : String := "以下是相关的视频内容：\n"

def ragCiteInstruction : String :=
  "\n请基于以上视频内容回答用户的问题。如果答案来自特定视频片段，请引用相应的来源编号（如【来源 1】）。"

/-- The numbered block `format_rag_context` builds for hit `i` (the
`entry_parts` list joined with newlines). -/
def formatEntry (i : Nat) (r : SearchResult) (includeSummaries : Bool) :
    String :=
  let time_range := format_timestamp r.start_time ++ " - " ++
    format_timestamp r.end_time
  let entry_parts :=
    ["\n【来源 " ++ Nat.repr i ++ "】",
     "视频: " ++ r.video_title ++ " (" ++ r.language ++ ")",
     "时间: " ++ time_range,
     "相似度: " ++ pyFixed 2 r.score]
  let entry_parts2 := entry_parts ++
    (match r.paragraph_summary with
     | some s => if includeSummaries && !s.isEmpty then ["摘要: " ++ s] else []
     | none => [])
  joinSep "\n" (entry_parts2 ++ ["内容: " ++ r.chunk_text])

/-- Embeds `format_rag_context`: empty input gives the empty string,
otherwise a header, one numbered block per hit appended in a loop, then the
fixed citation instruction, all joined with newlines. -/
def format_rag_context (results : List SearchResult)
    (includeSummaries : Bool) : String :=
  if results.isEmpty then ""
  else
    let context_parts := (List.enumFrom 1 results).foldl
      (fun acc p => acc ++ [formatEntry p.1 p.2 includeSummaries])
      [ragContextHeader]
    joinSep "\n" (context_parts ++ [ragCiteInstruction])

/-- Embeds `format_rag_system_prompt`. -/
def format_rag_system_prompt (base_prompt rag_context : String) : String :=
  if rag_context.isEmpty then base_prompt
  else base_prompt ++ "\n\n" ++ rag_context

/-- The hit fields `format_rag_context` renders; everything else
(`chunk_id`, `video_path`, `video_id`, `source_type`) is ignored by it. -/
def renderedFields (r : SearchResult) :
    String × String × ℚ × ℚ × ℚ × Option String × String :=
  (r.video_title, r.language, r.start_time, r.end_time, r.score,
    r.paragraph_summary, r.chunk_text)

/-- The string `sub` occurs inside `s` (stated on the character lists). -/
def strContains (s sub : String) : Prop :=
  ∃ pre post, s.data = pre ++ (sub.data ++ post)

theorem foldl_append_singleton {α β : Type} (g : α → β) (l : List α)
    (init : List β) :
    l.foldl (fun acc p => acc ++ [g p]) init = init ++ l.map g := by
  induction l generalizing init with
  | nil => simp
  | cons a rest ih =>
      simp only [List.foldl, List.map]
      rw [ih]
      simp

theorem enumFrom_get? {α : Type} (n : Nat) (l : List α) (i : Nat) :
    (List.enumFrom n l).get? i = (l.get? i).map (fun a => (n + i, a)) := by
  induction l generalizing n i with
  | nil => simp [List.enumFrom]
  | cons a rest ih =>
      cases i with
      | zero => simp [List.enumFrom]
      | succ m =>
          simp only [List.enumFrom, List.get?]
          rw [ih]
          have : n + (m + 1) = n + 1 + m := by omega
          rw [this]

theorem formatEntry_contains (i : Nat) (r : SearchResult) (inc : Bool) :
    strContains (formatEntry i r inc) r.video_title ∧
    strContains (formatEntry i r inc)
      (format_timestamp r.start_time ++ " - " ++
        format_timestamp r.end_time) ∧
    strContains (formatEntry i r inc) ("相似度: " ++ pyFixed 2 r.score) ∧
    strContains (formatEntry i r inc) ("内容: " ++ r.chunk_text) := by
  have hcases :
      formatEntry i r inc =
        ("\n【来源 " ++ Nat.repr i ++ "】") ++ "\n" ++
        ("视频: " ++ r.video_title ++ " (" ++ r.language ++ ")") ++ "\n" ++
        ("时间: " ++ (format_timestamp r.start_time ++ " - " ++
          format_timestamp r.end_time)) ++ "\n" ++
        ("相似度: " ++ pyFixed 2 r.score) ++ "\n" ++
        ("内容: " ++ r.chunk_text) ∨
      ∃ s, formatEntry i r inc =
        ("\n【来源 " ++ Nat.repr i ++ "】") ++ "\n" ++
        ("视频: " ++ r.video_title ++ " (" ++ r.language ++ ")") ++ "\n" ++
        ("时间: " ++ (format_timestamp r.start_time ++ " - " ++
          format_timestamp r.end_time)) ++ "\n" ++
        ("相似度: " ++ pyFixed 2 r.score) ++ "\n" ++
        ("摘要: " ++ s) ++ "\n" ++
        ("内容: " ++ r.chunk_text) := by
    unfold formatEntry
    cases hs : r.paragraph_summary with
    | none =>
        left
        simp only [joinSep]
        simp [String.append_assoc]
    | some s =>
        by_cases hkeep : (inc && !s.isEmpty) = true
        · right
          refine ⟨s, ?_⟩
          simp only [hkeep, if_true]
          simp only [joinSep]
          simp [String.append_assoc]
        · left
          simp only [hkeep, if_false]
          simp only [joinSep]
          simp [String.append_assoc]
  rcases hcases with h | ⟨s, h⟩
  · rw [h]
    refine ⟨⟨String.data ("\n【来源 " ++ Nat.repr i ++ "】" ++ "\n" ++ "视频: "),
        String.data (" (" ++ r.language ++ ")" ++ "\n" ++
        ("时间: " ++ (format_timestamp r.start_time ++ " - " ++
          format_timestamp r.end_time)) ++ "\n" ++
        ("相似度: " ++ pyFixed 2 r.score) ++ "\n" ++
        ("内容: " ++ r.chunk_text)), by simp [String.data_append]⟩,
      ⟨String.data ("\n【来源 " ++ Nat.repr i ++ "】" ++ "\n" ++
        ("视频: " ++ r.video_title ++ " (" ++ r.language ++ ")") ++ "\n" ++
        "时间: "),
        String.data ("\n" ++ ("相似度: " ++ pyFixed 2 r.score) ++ "\n" ++
        ("内容: " ++ r.chunk_text)), by simp [String.data_append]⟩,
      ⟨String.data ("\n【来源 " ++ Nat.repr i ++ "】" ++ "\n" ++
        ("视频: " ++ r.video_title ++ " (" ++ r.language ++ ")") ++ "\n" ++
        ("时间: " ++ (format_timestamp r.start_time ++ " - " ++
          format_timestamp r.end_time)) ++ "\n"),
        String.data ("\n" ++ ("内容: " ++ r.chunk_text)),
        by simp [String.data_append]⟩,
      ⟨String.data ("\n【来源 " ++ Nat.repr i ++ "】" ++ "\n" ++
        ("视频: " ++ r.video_title ++ " (" ++ r.language ++ ")") ++ "\n" ++
        ("时间: " ++ (format_timestamp r.start_time ++ " - " ++
          format_timestamp r.end_time)) ++ "\n" ++
        ("相似度: " ++ pyFixed 2 r.score) ++ "\n"), String.data "",
        by simp [String.data_append]⟩⟩
  · rw [h]
    refine ⟨⟨String.data ("\n【来源 " ++ Nat.repr i ++ "】" ++ "\n" ++ "视频: "),
        String.data (" (" ++ r.language ++ ")" ++ "\n" ++
        ("时间: " ++ (format_timestamp r.start_time ++ " - " ++
          format_timestamp r.end_time)) ++ "\n" ++
        ("相似度: " ++ pyFixed 2 r.score) ++ "\n" ++
        ("摘要: " ++ s) ++ "\n" ++
        ("内容: " ++ r.chunk_text)), by simp [String.data_append]⟩,
      ⟨String.data ("\n【来源 " ++ Nat.repr i ++ "】" ++ "\n" ++
        ("视频: " ++ r.video_title ++ " (" ++ r.language ++ ")") ++ "\n" ++
        "时间: "),
        String.data ("\n" ++ ("相似度: " ++ pyFixed 2 r.score) ++ "\n" ++
        ("摘要: " ++ s) ++ "\n" ++ ("内容: " ++ r.chunk_text)),
        by simp [String.data_append]⟩,
      ⟨String.data ("\n【来源 " ++ Nat.repr i ++ "】" ++ "\n" ++
        ("视频: " ++ r.video_title ++ " (" ++ r.language ++ ")") ++ "\n" ++
        ("时间: " ++ (format_timestamp r.start_time ++ " - " ++
          format_timestamp r.end_time)) ++ "\n"),
        String.data ("\n" ++ ("摘要: " ++ s) ++ "\n" ++
        ("内容: " ++ r.chunk_text)),
        by simp [String.data_append]⟩,
      ⟨String.data ("\n【来源 " ++ Nat.repr i ++ "】" ++ "\n" ++
        ("视频: " ++ r.video_title ++ " (" ++ r.language ++ ")") ++ "\n" ++
        ("时间: " ++ (format_timestamp r.start_time ++ " - " ++
          format_timestamp r.end_time)) ++ "\n" ++
        ("相似度: " ++ pyFixed 2 r.score) ++ "\n" ++
        ("摘要: " ++ s) ++ "\n"), String.data "",
        by simp [String.data_append]⟩⟩

theorem formatEntry_congr (i : Nat) (inc : Bool) {r1 r2 : SearchResult}
    (h : renderedFields r1 = renderedFields r2) :
    formatEntry i r1 inc = formatEntry i r2 inc := by
  unfold renderedFields at h
  simp only [Prod.mk.injEq] at h
  obtain ⟨h1, h2, h3, h4, h5, h6, h7⟩ := h
  unfold formatEntry
  rw [h1, h2, h3, h4, h5, h6, h7]

theorem enumFrom_map_formatEntry_congr (inc : Bool) :
    ∀ (n : Nat) (l1 l2 : List SearchResult),
    l1.map renderedFields = l2.map renderedFields →
    (List.enumFrom n l1).map (fun p => formatEntry p.1 p.2 inc) =
      (List.enumFrom n l2).map (fun p => formatEntry p.1 p.2 inc) := by
  intro n l1
  induction l1 generalizing n with
  | nil =>
      intro l2 h
      cases l2 with
      | nil => rfl
      | cons b bs => simp at h
  | cons a as ih =>
      intro l2 h
      cases l2 with
      | nil => simp at h
      | cons b bs =>
          simp only [List.map, List.cons.injEq] at h
          simp only [List.enumFrom, List.map, List.cons.injEq]
          exact ⟨formatEntry_congr _ inc h.1, ih (n + 1) bs h.2⟩

/-- C8: `format_rag_context` on a non-empty hit list is the header, one
numbered block per hit in the hits' order, and the fixed citation
instruction, joined by newlines; block `i` carries hit `i`'s title,
`HH:MM:SS - HH:MM:SS` time range, similarity score and retrieved text; and
the output is a function only of the rendered hit fields, so identical hit
lists give byte-identical output. -/
theorem C8_format_rag_context_deterministic_blocks
    (results : List SearchResult) (inc : Bool) (hne : results ≠ []) :
    format_rag_context results inc =
      joinSep "\n" (ragContextHeader ::
        ((List.enumFrom 1 results).map (fun p => formatEntry p.1 p.2 inc) ++
          [ragCiteInstruction])) ∧
    (∀ i r, results.get? i = some r →
      ((List.enumFrom 1 results).map
          (fun p => formatEntry p.1 p.2 inc)).get? i =
        some (formatEntry (1 + i) r inc) ∧
      strContains (formatEntry (1 + i) r inc) r.video_title ∧
      strContains (formatEntry (1 + i) r inc)
        (format_timestamp r.start_time ++ " - " ++
          format_timestamp r.end_time) ∧
      strContains (formatEntry (1 + i) r inc)
        ("相似度: " ++ pyFixed 2 r.score) ∧
      strContains (formatEntry (1 + i) r inc) ("内容: " ++ r.chunk_text)) ∧
    (∀ l2, results.map renderedFields = l2.map renderedFields →
      format_rag_context results inc = format_rag_context l2 inc) := by
  refine ⟨?_, ?_, ?_⟩
  · unfold format_rag_context
    rw [if_neg (by simpa using hne)]
    rw [foldl_append_singleton]
    rfl
  · intro i r hir
    refine ⟨?_, (formatEntry_contains (1 + i) r inc).1,
      (formatEntry_contains (1 + i) r inc).2.1,
      (formatEntry_contains (1 + i) r inc).2.2.1,
      (formatEntry_contains (1 + i) r inc).2.2.2⟩
    rw [List.get?_map, enumFrom_get?, hir]
    rfl
  · intro l2 h
    have hlen : results.length = l2.length := by
      have := congrArg List.length h
      simpa using this
    have hne2 : l2 ≠ [] := by
      intro hnil
      rw [hnil] at hlen
      simp at hlen
      exact hne hlen
    unfold format_rag_context
    rw [if_neg (by simpa using hne), if_neg (by simpa using hne2)]
    rw [foldl_append_singleton, foldl_append_singleton]
    rw [enumFrom_map_formatEntry_congr inc 1 results l2 h]

/-- Sample hits for the C8 witness. -/
def c8Hits : List SearchResult :=
  [{ chunk_id := "c1", score := 92/100, chunk_text := "正文一",
     paragraph_summary := some "小结一", video_title := "视频A",
     video_path := some "/v/a.mp4", video_id := some "va", language := "zh-cn",
     start_time := 5, end_time := 65, source_type := "chunk" },
   { chunk_id := "c2", score := 8/10, chunk_text := "正文二",
     paragraph_summary := none, video_title := "视频B",
     video_path := none, video_id := none, language := "zh-cn",
     start_time := 70, end_time := 3605, source_type := "chunk" }]

/-- Witness for C8 at two concrete hits. -/
theorem C8_format_rag_context_deterministic_blocks_witness :
    format_rag_context c8Hits true =
      joinSep "\n" (ragContextHeader ::
        ((List.enumFrom 1 c8Hits).map (fun p => formatEntry p.1 p.2 true) ++
          [ragCiteInstruction])) ∧
    (∀ i r, c8Hits.get? i = some r →
      ((List.enumFrom 1 c8Hits).map
          (fun p => formatEntry p.1 p.2 true)).get? i =
        some (formatEntry (1 + i) r true) ∧
      strContains (formatEntry (1 + i) r true) r.video_title ∧
      strContains (formatEntry (1 + i) r true)
        (format_timestamp r.start_time ++ " - " ++
          format_timestamp r.end_time) ∧
      strContains (formatEntry (1 + i) r true)
        ("相似度: " ++ pyFixed 2 r.score) ∧
      strContains (formatEntry (1 + i) r true) ("内容: " ++ r.chunk_text)) ∧
    (∀ l2, c8Hits.map renderedFields = l2.map renderedFields →
      format_rag_context c8Hits true = format_rag_context l2 true) :=
  C8_format_rag_context_deterministic_blocks c8Hits true (by simp [c8Hits])

/-! The two chat orchestrators: `qdrant_chat`
(`backend/routers/qdrant_rag.py`) and `chat_with_knowledge_base`
(`backend/knowledge/knowledge_service.py` with
`backend/knowledge/chat_client.py`). External calls are oracles in an
environment record; an `Except.error` oracle result is the call raising. An
effects trace records the outbound calls actually attempted. -/

/-- The JSON body `chat_with_openai` posts: the fixed keys plus
`payload.update(kwargs)` — every keyword argument that reaches `**kwargs`
lands as an extra top-level key. The only kwarg ever passed in the repo is
`history`, a list of role/content pairs. The request URL
`f"{base_url}/chat/completions"` is part of the transport, absorbed into the
oracle. -/
structure KBPayload where
  model : String
  messages : List (String × String)
  temperature : ℚ
  extra : List (String × List (String × String))
  deriving DecidableEq, Repr

/-- The JSON body `qdrant_chat` posts to `{base_url}/chat/completions`. -/
structure QdrantPayload where
  model : String
  messages : List (String × String)
  temperature : ℚ
  max_tokens : Nat
  deriving DecidableEq, Repr

/-- Outbound calls attempted during a chat request. -/
inductive Effect where
  | embedCall (text : String)
  | searchCall (limit : Nat) (threshold : ℚ)
  | qdrantLlmCall (p : QdrantPayload)
  | kbLlmCall (p : KBPayload)
  deriving DecidableEq, Repr

structure HttpError where
  status : Nat
  detail : String
  deriving DecidableEq, Repr

structure QdrantChatResp where
  answer : String
  references : List Reference
  query : String
  session_id : String
  deriving DecidableEq, Repr

/-- Environment of one `qdrant_chat` request. -/
structure QdrantChatEnv where
  genSessionId : String
  ragEnabled : Bool
  embedCfgOk : Bool
  connectionOk : Bool
  embed : String → Except String (List ℚ)
  searchOutcome : List ℚ → Except String (List SearchResult)
  includeSummaries : Bool
  llmConfig : Option (String × String × String)
  llm : QdrantPayload → Except String String
  saveUserOk : Bool
  saveAssistantOk : Bool
  tUser : Nat
  tAssistant : Nat

/-- Embeds `VideoQdrantClient.search_similar`: any exception from the Qdrant
call is caught, logged and turned into an empty result list. -/
def search_similar (env : QdrantChatEnv) (v : List ℚ) : List SearchResult :=
  match env.searchOutcome v with
  | .ok l => l
  | .error _ => []

def qdrantFallbackAnswer : String :=
  "抱歉，我在知识库中没有找到相关内容来回答您的问题。"

def qdrantBaseSystemPrompt : String :=
  "你是一个专业的视频内容问答助手。请基于提供的视频内容回答用户的问题，并在回答中引用相关来源。"

/-- Embeds the `qdrant_chat` endpoint: session id defaulting, the RAG-enabled
and connection gates, embedding, masked search, the zero-hit fallback path
that still writes both history rows, context formatting, the LLM call and
reference building; every uncaught exception becomes an HTTP 500 via the
final `except` clause, and history-write failures are swallowed. -/
def qdrant_chat (env : QdrantChatEnv) (query : String)
    (session_id : Option String) (n_results : Nat) (score_threshold : ℚ)
    (db : ChatDb) :
    Except HttpError QdrantChatResp × ChatDb × List Effect :=
  let sid := match session_id with | some s => s | none => env.genSessionId
  if env.ragEnabled = false then
    (.error ⟨503, "Qdrant RAG is disabled. Set RAG_ENABLED=true to enable."⟩,
      db, [])
  else if env.embedCfgOk = false then
    (.error ⟨500,
      "Embedding API not configured (need QDRANT_EMBEDDING_API_URL and QDRANT_EMBEDDING_API_KEY)"⟩,
      db, [])
  else if env.connectionOk = false then
    (.error ⟨503, "Cannot connect to Qdrant. Please ensure Qdrant is running."⟩,
      db, [])
  else
    match env.embed query with
    | .error e => (.error ⟨500, "Chat failed: " ++ e⟩, db, [.embedCall query])
    | .ok vec =>
        let results := search_similar env vec
        let effs := [Effect.embedCall query,
          Effect.searchCall n_results score_threshold]
        if results.isEmpty then
          let db1 := if env.saveUserOk then
              save_chat_message db sid "user" query .null env.tUser
            else db
          let db2 := if env.saveUserOk && env.saveAssistantOk then
              save_chat_message db1 sid "assistant" qdrantFallbackAnswer
                (.qdrantRefs []) env.tAssistant
            else db1
          (.ok { answer := qdrantFallbackAnswer, references := [],
                 query := query, session_id := sid }, db2, effs)
        else
          let rag_context := format_rag_context results env.includeSummaries
          match env.llmConfig with
          | none => (.error ⟨500, "LLM API not configured"⟩, db, effs)
          | some cfg =>
              let system_prompt :=
                format_rag_system_prompt qdrantBaseSystemPrompt rag_context
              let payload : QdrantPayload :=
                { model := cfg.2.2,
                  messages := [("system", system_prompt), ("user", query)],
                  temperature := 7/10, max_tokens := 2000 }
              match env.llm payload with
              | .error e =>
                  (.error ⟨500, "Chat failed: " ++ e⟩, db,
                    effs ++ [.qdrantLlmCall payload])
              | .ok answer =>
                  let references := results.map refOfResult
                  let db1 := if env.saveUserOk then
                      save_chat_message db sid "user" query .null env.tUser
                    else db
                  let db2 := if env.saveUserOk && env.saveAssistantOk then
                      save_chat_message db1 sid "assistant" answer
                        (.qdrantRefs references) env.tAssistant
                    else db1
                  (.ok { answer := answer, references := references,
                         query := query, session_id := sid }, db2,
                    effs ++ [.qdrantLlmCall payload])

def kbDefaultSystemPrompt : String :=
  "你是一个专业的视频内容助手，能够根据视频转写内容回答用户的问题。请基于提供的上下文准确、详细地回答问题。"

def ragDefaultSystemPrompt : String :=
  "你是一个视频内容分析助手。用户会向你提问关于视频内容的问题，我会提供相关的视频片段和摘要作为参考。\n\n请根据提供的视频片段内容来回答用户的问题。如果答案在提供的内容中，请详细回答并引用相关片段。如果提供的内容不足以回答问题，请诚实地说明。\n\n在回答时，请：\n1. 优先使用提供的视频内容进行回答\n2. 如果引用了特定片段，可以提到\"根据视频 X 的 Y 秒到 Z 秒...\"\n3. 保持回答简洁、准确\n4. 如果有多个相关片段支持答案，可以综合说明"

def kbFallbackAnswer : String :=
  "抱歉，我没有找到相关的视频内容来回答您的问题。"

/-- Python `s.split(sep)[-1]`. -/
def splitChars (sep : Char) : List Char → List (List Char)
  | [] => [[]]
  | c :: cs =>
      if c = sep then [] :: splitChars sep cs
      else match splitChars sep cs with
        | [] => [[c]]
        | g :: gs => (c :: g) :: gs

/-- Structural last-with-default, kernel-computable on literals. -/
def lastD (d : List Char) : List (List Char) → List Char
  | [] => d
  | [x] => x
  | _ :: y :: ys => lastD d (y :: ys)

/-- Embeds Python `s.split(sep)[-1]` for a one-character separator. -/
def lastSegment (s : String) (sep : Char) : String :=
  ⟨lastD s.data (splitChars sep s.data)⟩

/-- Embeds `chat_with_openai`: validates `api_key` and `messages`, builds the
JSON body `{model, messages, temperature}`, then `payload.update(kwargs)`.
The HTTP call, status check and response parsing are the oracle. -/
def chat_with_openai (llm : KBPayload → Except String String)
    (messages : List (String × String)) (api_key : String)
    (model : String) (temperature : ℚ)
    (kwargs : List (String × List (String × String))) :
    Except String String × List Effect :=
  if api_key.isEmpty then (.error "api_key不能为空", [])
  else if messages.isEmpty then (.error "messages不能为空", [])
  else
    let payload : KBPayload :=
      { model := model, messages := messages, temperature := temperature,
        extra := kwargs }
    (llm payload, [.kbLlmCall payload])

/-- The context block `chat_with_rag` renders for document `i`. -/
def docEntry (i : Nat) (doc : Doc) : String :=
  let video_path := match doc.metadata.video_path with
    | some p => p
    | none => "未知视频"
  let video_name := if video_path.isEmpty then "未知"
    else lastSegment (lastSegment video_path '/') '\\'
  if doc.metadata.mtype = some "paragraph" then
    "[片段 " ++ Nat.repr i ++ "] 视频: " ++ video_name ++ ", 时间: " ++
      pyFixed 1 doc.metadata.start_time ++ "s - " ++
      pyFixed 1 doc.metadata.end_time ++ "s\n" ++ doc.document ++ "\n"
  else
    "[片段 " ++ Nat.repr i ++ "] 视频: " ++ video_name ++ " (整体摘要)\n" ++
      doc.document ++ "\n"

/-- Embeds `chat_with_rag`: note its signature has no `history` parameter —
a `history=...` argument from the caller lands in `**kwargs` and is passed
through to `chat_with_openai`, ending up as an extra top-level payload key,
never in the message list. The message list is exactly
`[system, user_message]`. -/
def chat_with_rag (llm : KBPayload → Except String String) (query : String)
    (context_documents : List Doc) (api_key : String) (model : String)
    (system_prompt : Option String)
    (kwargs : List (String × List (String × String))) :
    Except String (String × List Doc) × List Effect :=
  let sp := match system_prompt with
    | some s => if s.isEmpty then ragDefaultSystemPrompt else s
    | none => ragDefaultSystemPrompt
  let context_parts := (List.enumFrom 1 context_documents).foldl
    (fun acc p => acc ++ [docEntry p.1 p.2]) []
  let context_text := joinSep "\n" context_parts
  let user_message := "参考视频内容：\n" ++ context_text ++ "\n\n用户问题：" ++
    query ++ "\n\n请根据上面提供的视频内容回答用户的问题。"
  let messages := [("system", sp), ("user", user_message)]
  match chat_with_openai llm messages api_key model (3/10) kwargs with
  | (.ok answer, effs) => (.ok (answer, context_documents), effs)
  | (.error e, effs) => (.error e, effs)

/-- Environment of one `chat_with_knowledge_base` call. -/
structure KBEnv where
  systemPromptCfg : Option String
  searchOutcome : Except String (List Doc)
  llm : KBPayload → Except String String
  saveUserOk : Bool
  saveAssistantOk : Bool
  tUser : Nat
  tAssistant : Nat

/-- Embeds `search_knowledge_base`: any exception from the vector store is
caught, logged and turned into an empty result list. The metadata
normalisation it performs on success only touches fields no claim observes
and is the identity here. -/
def search_knowledge_base (env : KBEnv) : List Doc :=
  match env.searchOutcome with
  | .ok docs => docs
  | .error _ => []

/-- The dict `chat_with_knowledge_base` returns (the `error` key is present
only on the exception path). -/
structure KBResult where
  answer : String
  references : List Doc
  query : String
  error : Option String
  deriving DecidableEq, Repr

/-- Embeds `chat_with_knowledge_base`: system prompt from configuration with
built-in fallback, history loaded ascending capped at 20 and handed to
`chat_with_rag` as `history=...`, retrieval through the masking search, the
zero-hit fallback answer, history persistence for truthy session ids with
write failures swallowed, and the outer `except` that returns an error dict
and skips persistence. -/
def chat_with_knowledge_base (env : KBEnv) (query : String) (nResults : Nat)
    (api_key : String) (model : String) (session_id : Option String)
    (db : ChatDb) : KBResult × ChatDb × List Effect :=
  let sidOk := match session_id with | some s => !s.isEmpty | none => false
  let sid := match session_id with | some s => s | none => ""
  let system_prompt := match env.systemPromptCfg with
    | some s => if s.isEmpty then kbDefaultSystemPrompt else s
    | none => kbDefaultSystemPrompt
  let history : List (String × String) :=
    if sidOk then (get_chat_history db sid 20).map (fun r => (r.role, r.content))
    else []
  let docs := search_knowledge_base env
  if docs.isEmpty then
    let result : KBResult :=
      { answer := kbFallbackAnswer, references := [], query := query,
        error := none }
    let db1 := if sidOk && env.saveUserOk then
        save_chat_message db sid "user" query (.ksUser nResults) env.tUser
      else db
    let db2 := if sidOk && env.saveUserOk && env.saveAssistantOk then
        save_chat_message db1 sid "assistant" kbFallbackAnswer
          (.ksAssistant 0 []) env.tAssistant
      else db1
    (result, db2, [])
  else
    match chat_with_rag env.llm query docs api_key model
        (some system_prompt) [("history", history)] with
    | (.ok (answer, refs), effs) =>
        let result : KBResult :=
          { answer := answer, references := refs, query := query,
            error := none }
        let db1 := if sidOk && env.saveUserOk then
            save_chat_message db sid "user" query (.ksUser nResults) env.tUser
          else db
        let db2 := if sidOk && env.saveUserOk && env.saveAssistantOk then
            save_chat_message db1 sid "assistant" answer
              (.ksAssistant refs.length refs) env.tAssistant
          else db1
        (result, db2, effs)
    | (.error e, effs) =>
        ({ answer := "对话过程中发生错误: " ++ e, references := [],
           query := query, error := some e }, db, effs)

/-- C5: on zero hits at or above the threshold, both chat paths return their
fixed fallback text with an empty reference list and still append exactly
two turns — first a user turn carrying the original query, then an
assistant turn carrying the answer (given working history persistence; a
persistence failure is separately specified as non-fatal). -/
theorem C5_zero_hit_fallback_two_turns
    (env : QdrantChatEnv) (query : String) (sidOpt : Option String)
    (nr : Nat) (th : ℚ) (db : ChatDb) (vec : List ℚ)
    (hrag : env.ragEnabled = true) (hcfg : env.embedCfgOk = true)
    (hconn : env.connectionOk = true)
    (hembed : env.embed query = .ok vec)
    (hzero : env.searchOutcome vec = .ok [])
    (hsu : env.saveUserOk = true) (hsa : env.saveAssistantOk = true)
    (kenv : KBEnv) (kquery : String) (knr : Nat) (kkey kmodel : String)
    (ksid : String) (kdb : ChatDb)
    (hksid : ksid.isEmpty = false) (hkzero : kenv.searchOutcome = .ok [])
    (hksu : kenv.saveUserOk = true) (hksa : kenv.saveAssistantOk = true) :
    (∃ u a : ChatRow,
      qdrant_chat env query sidOpt nr th db =
        (.ok { answer := qdrantFallbackAnswer, references := [],
               query := query,
               session_id := match sidOpt with
                 | some s => s
                 | none => env.genSessionId },
          db ++ [u, a],
          [.embedCall query, .searchCall nr th]) ∧
      u.role = "user" ∧ u.content = query ∧
      a.role = "assistant" ∧ a.content = qdrantFallbackAnswer ∧
      a.metadata = .qdrantRefs []) ∧
    (∃ u a : ChatRow,
      chat_with_knowledge_base kenv kquery knr kkey kmodel (some ksid) kdb =
        ({ answer := kbFallbackAnswer, references := [], query := kquery,
           error := none }, kdb ++ [u, a], []) ∧
      u.role = "user" ∧ u.content = kquery ∧
      a.role = "assistant" ∧ a.content = kbFallbackAnswer) := by
  constructor
  · have hq : qdrant_chat env query sidOpt nr th db =
        (.ok { answer := qdrantFallbackAnswer, references := [],
               query := query,
               session_id := match sidOpt with
                 | some s => s
                 | none => env.genSessionId },
          save_chat_message
            (save_chat_message db
              (match sidOpt with | some s => s | none => env.genSessionId)
              "user" query .null env.tUser)
            (match sidOpt with | some s => s | none => env.genSessionId)
            "assistant" qdrantFallbackAnswer (.qdrantRefs []) env.tAssistant,
          [.embedCall query, .searchCall nr th]) := by
      unfold qdrant_chat search_similar
      rw [if_neg (show ¬(env.ragEnabled = false) by simp [hrag]),
          if_neg (show ¬(env.embedCfgOk = false) by simp [hcfg]),
          if_neg (show ¬(env.connectionOk = false) by simp [hconn]), hembed]
      dsimp only []
      rw [hzero, hsu, hsa]
      rfl
    rw [hq]
    refine ⟨{ id := nextChatId db,
              session_id := (match sidOpt with | some s => s | none => env.genSessionId),
              role := "user", content := query, metadata := .null,
              created_at := env.tUser },
      { id := nextChatId (save_chat_message db
                (match sidOpt with | some s => s | none => env.genSessionId)
                "user" query .null env.tUser),
        session_id := (match sidOpt with | some s => s | none => env.genSessionId),
        role := "assistant", content := qdrantFallbackAnswer,
        metadata := .qdrantRefs [], created_at := env.tAssistant },
      ?_, rfl, rfl, rfl, rfl, rfl⟩
    simp [save_chat_message]
    cases sidOpt <;> simp
  · have hq : chat_with_knowledge_base kenv kquery knr kkey kmodel
        (some ksid) kdb =
        ({ answer := kbFallbackAnswer, references := [], query := kquery,
           error := none },
          save_chat_message
            (save_chat_message kdb ksid "user" kquery (.ksUser knr) kenv.tUser)
            ksid "assistant" kbFallbackAnswer (.ksAssistant 0 [])
            kenv.tAssistant, []) := by
      unfold chat_with_knowledge_base search_knowledge_base
      rw [hkzero]
      dsimp only []
      rw [hksid, hksu, hksa]
      rfl
    rw [hq]
    refine ⟨{ id := nextChatId kdb, session_id := ksid, role := "user",
              content := kquery, metadata := .ksUser knr,
              created_at := kenv.tUser },
      { id := nextChatId (save_chat_message kdb ksid "user" kquery
          (.ksUser knr) kenv.tUser),
        session_id := ksid, role := "assistant", content := kbFallbackAnswer,
        metadata := .ksAssistant 0 [], created_at := kenv.tAssistant },
      ?_, rfl, rfl, rfl, rfl⟩
    simp [save_chat_message]

/-- Concrete environment for the qdrant chat path: all gates pass, the
search returns no hit. -/
def qdrantDemoEnv : QdrantChatEnv :=
  { genSessionId := "S1", ragEnabled := true, embedCfgOk := true,
    connectionOk := true, embed := fun _ => .ok [1],
    searchOutcome := fun _ => .ok [], includeSummaries := true,
    llmConfig := some ("k", ("http://llm", "m")),
    llm := fun _ => .ok "答案", saveUserOk := true, saveAssistantOk := true,
    tUser := 1, tAssistant := 2 }

/-- Concrete environment for the knowledge-base chat path with an empty
retrieval. -/
def kbDemoEnv : KBEnv :=
  { systemPromptCfg := some "SP", searchOutcome := .ok [],
    llm := fun _ => .ok "答案", saveUserOk := true, saveAssistantOk := true,
    tUser := 1, tAssistant := 2 }

/-- Witness for C5 at the two concrete environments. -/
theorem C5_zero_hit_fallback_two_turns_witness :
    (∃ u a : ChatRow,
      qdrant_chat qdrantDemoEnv "问题" none 5 1 [] =
        (.ok { answer := qdrantFallbackAnswer, references := [],
               query := "问题",
               session_id := match (none : Option String) with
                 | some s => s
                 | none => qdrantDemoEnv.genSessionId },
          [] ++ [u, a], [.embedCall "问题", .searchCall 5 1]) ∧
      u.role = "user" ∧ u.content = "问题" ∧
      a.role = "assistant" ∧ a.content = qdrantFallbackAnswer ∧
      a.metadata = .qdrantRefs []) ∧
    (∃ u a : ChatRow,
      chat_with_knowledge_base kbDemoEnv "问题" 5 "key" "m" (some "s9") [] =
        ({ answer := kbFallbackAnswer, references := [], query := "问题",
           error := none }, [] ++ [u, a], []) ∧
      u.role = "user" ∧ u.content = "问题" ∧
      a.role = "assistant" ∧ a.content = kbFallbackAnswer) :=
  C5_zero_hit_fallback_two_turns qdrantDemoEnv "问题" none 5 1 [] [1]
    rfl rfl rfl rfl rfl rfl rfl kbDemoEnv "问题" 5 "key" "m" "s9" []
    (by decide) rfl rfl rfl

/-- Counterexample for C7: with every gate passing, `qdrant_chat` does not
reject the empty query — it computes an embedding for `""` and issues the
vector search, then answers normally. -/
theorem C7_empty_query_embedded_counterexample :
    (qdrant_chat qdrantDemoEnv "" none 5 1 []).2.2 =
      [.embedCall "", .searchCall 5 1] ∧
    (qdrant_chat qdrantDemoEnv "" none 5 1 []).1 =
      .ok { answer := qdrantFallbackAnswer, references := [], query := "",
            session_id := "S1" } := ⟨rfl, rfl⟩

/-- C7 amended: `qdrant_chat` performs no query validation at all — for
every request that passes the enablement, embedding-configuration and
connection gates, an embedding call for exactly the query text (the empty
string included) is attempted, and whenever the embedding succeeds the
vector search is issued as well. -/
theorem C7_empty_query_not_rejected (env : QdrantChatEnv) (query : String)
    (sidOpt : Option String) (nr : Nat) (th : ℚ) (db : ChatDb)
    (hrag : env.ragEnabled = true) (hcfg : env.embedCfgOk = true)
    (hconn : env.connectionOk = true) :
    Effect.embedCall query ∈ (qdrant_chat env query sidOpt nr th db).2.2 ∧
    (∀ vec, env.embed query = .ok vec →
      Effect.searchCall nr th ∈ (qdrant_chat env query sidOpt nr th db).2.2) := by
  constructor
  · unfold qdrant_chat search_similar
    rw [if_neg (show ¬(env.ragEnabled = false) by simp [hrag]),
        if_neg (show ¬(env.embedCfgOk = false) by simp [hcfg]),
        if_neg (show ¬(env.connectionOk = false) by simp [hconn])]
    cases hembed : env.embed query with
    | error e => simp
    | ok vec =>
        dsimp only []
        split
        · simp
        · split
          · simp
          · split <;> simp
  · intro vec hembed
    unfold qdrant_chat search_similar
    rw [if_neg (show ¬(env.ragEnabled = false) by simp [hrag]),
        if_neg (show ¬(env.embedCfgOk = false) by simp [hcfg]),
        if_neg (show ¬(env.connectionOk = false) by simp [hconn]), hembed]
    dsimp only []
    split
    · simp
    · split
      · simp
      · split <;> simp

/-- Witness for C7 at the concrete environment and query `""`. -/
theorem C7_empty_query_not_rejected_witness :
    Effect.embedCall "" ∈ (qdrant_chat qdrantDemoEnv "" (some "sx") 5 1 []).2.2 ∧
    (∀ vec, qdrantDemoEnv.embed "" = .ok vec →
      Effect.searchCall 5 1 ∈
        (qdrant_chat qdrantDemoEnv "" (some "sx") 5 1 []).2.2) :=
  C7_empty_query_not_rejected qdrantDemoEnv "" (some "sx") 5 1 [] rfl rfl rfl

/-- Environment whose Qdrant search raises. -/
def qdrantSearchFailEnv : QdrantChatEnv :=
  { genSessionId := "S1", ragEnabled := true, embedCfgOk := true,
    connectionOk := true, embed := fun _ => .ok [1],
    searchOutcome := fun _ => .error "Qdrant连接中断", includeSummaries := true,
    llmConfig := some ("k", ("http://llm", "m")),
    llm := fun _ => .ok "答案", saveUserOk := true, saveAssistantOk := true,
    tUser := 1, tAssistant := 2 }

/-- Counterexample for C9: a vector-search failure is swallowed by
`search_similar` (it returns `[]`), so the caller receives a normal success
response carrying the no-content fallback answer — not a structured
error. -/
theorem C9_search_failure_masked_counterexample :
    (qdrant_chat qdrantSearchFailEnv "问" none 5 1 []).1 =
      .ok { answer := qdrantFallbackAnswer, references := [], query := "问",
            session_id := "S1" } := rfl

/-- C9 amended: configuration and completion failures produce structured
errors on both chat paths (HTTP 4xx/5xx for `qdrant_chat`, an explicit
`error` field for `chat_with_knowledge_base`), and an embedding failure
produces HTTP 500; but a vector-search failure is swallowed by both
retrieval clients and surfaces as the normal no-content fallback success
response instead of an error. -/
theorem C9_structured_errors_except_search (env : QdrantChatEnv)
    (query : String) (sidOpt : Option String) (nr : Nat) (th : ℚ)
    (db : ChatDb) (kenv : KBEnv) (kquery : String) (knr : Nat)
    (kkey kmodel : String) (ksidOpt : Option String) (kdb : ChatDb) :
    (env.ragEnabled = false →
      (qdrant_chat env query sidOpt nr th db).1 =
        .error ⟨503, "Qdrant RAG is disabled. Set RAG_ENABLED=true to enable."⟩) ∧
    (env.ragEnabled = true → env.embedCfgOk = false →
      (qdrant_chat env query sidOpt nr th db).1 =
        .error ⟨500,
          "Embedding API not configured (need QDRANT_EMBEDDING_API_URL and QDRANT_EMBEDDING_API_KEY)"⟩) ∧
    (env.ragEnabled = true → env.embedCfgOk = true →
      env.connectionOk = false →
      (qdrant_chat env query sidOpt nr th db).1 =
        .error ⟨503, "Cannot connect to Qdrant. Please ensure Qdrant is running."⟩) ∧
    (∀ e, env.ragEnabled = true → env.embedCfgOk = true →
      env.connectionOk = true → env.embed query = .error e →
      (qdrant_chat env query sidOpt nr th db).1 =
        .error ⟨500, "Chat failed: " ++ e⟩) ∧
    (∀ vec hits, env.ragEnabled = true → env.embedCfgOk = true →
      env.connectionOk = true → env.embed query = .ok vec →
      env.searchOutcome vec = .ok hits → hits ≠ [] →
      env.llmConfig = none →
      (qdrant_chat env query sidOpt nr th db).1 =
        .error ⟨500, "LLM API not configured"⟩) ∧
    (∀ vec hits cfg e, env.ragEnabled = true → env.embedCfgOk = true →
      env.connectionOk = true → env.embed query = .ok vec →
      env.searchOutcome vec = .ok hits → hits ≠ [] →
      env.llmConfig = some cfg → (∀ p, env.llm p = .error e) →
      (qdrant_chat env query sidOpt nr th db).1 =
        .error ⟨500, "Chat failed: " ++ e⟩) ∧
    (∀ vec e, env.ragEnabled = true → env.embedCfgOk = true →
      env.connectionOk = true → env.embed query = .ok vec →
      env.searchOutcome vec = .error e →
      (qdrant_chat env query sidOpt nr th db).1 =
        .ok { answer := qdrantFallbackAnswer, references := [],
              query := query,
              session_id := match sidOpt with
                | some s => s
                | none => env.genSessionId }) ∧
    (∀ docs e, kenv.searchOutcome = .ok docs → docs ≠ [] →
      kkey.isEmpty = false → (∀ p, kenv.llm p = .error e) →
      (chat_with_knowledge_base kenv kquery knr kkey kmodel ksidOpt kdb).1 =
        { answer := "对话过程中发生错误: " ++ e, references := [],
          query := kquery, error := some e }) ∧
    (∀ e, kenv.searchOutcome = .error e →
      (chat_with_knowledge_base kenv kquery knr kkey kmodel ksidOpt
          kdb).1.error = none ∧
      (chat_with_knowledge_base kenv kquery knr kkey kmodel ksidOpt
          kdb).1.answer = kbFallbackAnswer) := by
  refine ⟨?_, ?_, ?_, ?_, ?_, ?_, ?_, ?_, ?_⟩
  · intro h
    unfold qdrant_chat
    rw [h]
    rfl
  · intro h1 h2
    unfold qdrant_chat
    rw [if_neg (show ¬(env.ragEnabled = false) by simp [h1]), h2]
    rfl
  · intro h1 h2 h3
    unfold qdrant_chat
    rw [if_neg (show ¬(env.ragEnabled = false) by simp [h1]),
        if_neg (show ¬(env.embedCfgOk = false) by simp [h2]), h3]
    rfl
  · intro e h1 h2 h3 h4
    unfold qdrant_chat
    rw [if_neg (show ¬(env.ragEnabled = false) by simp [h1]),
        if_neg (show ¬(env.embedCfgOk = false) by simp [h2]),
        if_neg (show ¬(env.connectionOk = false) by simp [h3]), h4]
  · intro vec hits h1 h2 h3 h4 h5 h6 h7
    unfold qdrant_chat search_similar
    rw [if_neg (show ¬(env.ragEnabled = false) by simp [h1]),
        if_neg (show ¬(env.embedCfgOk = false) by simp [h2]),
        if_neg (show ¬(env.connectionOk = false) by simp [h3]), h4]
    dsimp only []
    rw [h5]
    dsimp only []
    rw [if_neg (show ¬(hits.isEmpty = true) by simp [List.isEmpty_iff, h6]),
        h7]
  · intro vec hits cfg e h1 h2 h3 h4 h5 h6 h7 h8
    unfold qdrant_chat search_similar
    rw [if_neg (show ¬(env.ragEnabled = false) by simp [h1]),
        if_neg (show ¬(env.embedCfgOk = false) by simp [h2]),
        if_neg (show ¬(env.connectionOk = false) by simp [h3]), h4]
    dsimp only []
    rw [h5]
    dsimp only []
    rw [if_neg (show ¬(hits.isEmpty = true) by simp [List.isEmpty_iff, h6]),
        h7]
    dsimp only []
    rw [h8]
  · intro vec e h1 h2 h3 h4 h5
    unfold qdrant_chat search_similar
    rw [if_neg (show ¬(env.ragEnabled = false) by simp [h1]),
        if_neg (show ¬(env.embedCfgOk = false) by simp [h2]),
        if_neg (show ¬(env.connectionOk = false) by simp [h3]), h4]
    dsimp only []
    rw [h5]
    rfl
  · intro docs e h1 h2 h3 h4
    unfold chat_with_knowledge_base search_knowledge_base chat_with_rag
      chat_with_openai
    rw [h1]
    simp [List.isEmpty_iff, h2, h3, h4]
  · intro e h1
    unfold chat_with_knowledge_base search_knowledge_base
    rw [h1]
    exact ⟨rfl, rfl⟩

/-- Knowledge-base environment whose completion call raises. -/
def kbLlmFailEnv : KBEnv :=
  { systemPromptCfg := some "SP",
    searchOutcome := .ok [{ document := "片段内容",
                            metadata := { video_path := some "/v/x.mp4",
                                          mtype := some "summary",
                                          start_time := 0,
                                          end_time := 0 } }],
    llm := fun _ => .error "上游超时", saveUserOk := true,
    saveAssistantOk := true, tUser := 3, tAssistant := 4 }

/-- Witness for the amended C9 at concrete environments. -/
theorem C9_structured_errors_except_search_witness :
    ((qdrantSearchFailEnv.ragEnabled = false →
      (qdrant_chat qdrantSearchFailEnv "问" none 5 1 []).1 =
        .error ⟨503, "Qdrant RAG is disabled. Set RAG_ENABLED=true to enable."⟩) →
      True) ∧
    (∀ vec e, qdrantSearchFailEnv.ragEnabled = true →
      qdrantSearchFailEnv.embedCfgOk = true →
      qdrantSearchFailEnv.connectionOk = true →
      qdrantSearchFailEnv.embed "问" = .ok vec →
      qdrantSearchFailEnv.searchOutcome vec = .error e →
      (qdrant_chat qdrantSearchFailEnv "问" none 5 1 []).1 =
        .ok { answer := qdrantFallbackAnswer, references := [],
              query := "问",
              session_id := match (none : Option String) with
                | some s => s
                | none => qdrantSearchFailEnv.genSessionId }) ∧
    (∀ docs e, kbLlmFailEnv.searchOutcome = .ok docs → docs ≠ [] →
      ("key" : String).isEmpty = false →
      (∀ p, kbLlmFailEnv.llm p = .error e) →
      (chat_with_knowledge_base kbLlmFailEnv "问" 5 "key" "m" (some "s9")
          []).1 =
        { answer := "对话过程中发生错误: " ++ e, references := [],
          query := "问", error := some e }) := by
  refine ⟨fun _ => trivial, ?_, ?_⟩
  · exact (C9_structured_errors_except_search qdrantSearchFailEnv "问" none
      5 1 [] kbLlmFailEnv "问" 5 "key" "m" (some "s9") []).2.2.2.2.2.2.1
  · exact (C9_structured_errors_except_search qdrantSearchFailEnv "问" none
      5 1 [] kbLlmFailEnv "问" 5 "key" "m" (some "s9") []).2.2.2.2.2.2.2.1

/-- Prior turns of session `s1` for the C6 failing input. -/
def kb6Db : ChatDb :=
  [{ id := 1, session_id := "s1", role := "user", content := "早前问题",
     metadata := .null, created_at := 1 },
   { id := 2, session_id := "s1", role := "assistant", content := "早前回答",
     metadata := .null, created_at := 2 }]

/-- The single retrieved document of the C6 failing input. -/
def kb6Doc : Doc :=
  { document := "片段内容",
    metadata := { video_path := some "/v/x.mp4", mtype := some "summary",
                  start_time := 0, end_time := 0 } }

/-- Knowledge-base environment with one retrieved document for the C6
failing input. -/
def kb6Env : KBEnv :=
  { systemPromptCfg := some "SP",
    searchOutcome := .ok [kb6Doc],
    llm := fun _ => .ok "答复", saveUserOk := true, saveAssistantOk := true,
    tUser := 3, tAssistant := 4 }

/-- The completion payload actually issued on the C6 failing input. -/
def kb6Payload : KBPayload :=
  { model := "m",
    messages := [("system", "SP"),
                 ("user", "参考视频内容：
" ++ docEntry 1 kb6Doc ++
                   "

用户问题：新问题

请根据上面提供的视频内容回答用户的问题。")],
    temperature := 3/10,
    extra := [("history",
               [("user", "早前问题"), ("assistant", "早前回答")])] }

/-- C6, evaluated at the failing input: for a session with two prior stored
turns, the completion request issued by `chat_with_knowledge_base` has a
message list of exactly `[system, user]` — the prior turns appear in none of
its messages; they are passed instead as a bogus top-level `history` key of
the JSON payload (`chat_with_rag` has no `history` parameter, so the
argument falls into `**kwargs` and `payload.update(kwargs)` attaches it). -/
theorem C6_history_outside_message_list :
    (chat_with_knowledge_base kb6Env "新问题" 5 "key" "m" (some "s1")
        kb6Db).2.2.length = 1 ∧
    ∀ e ∈ (chat_with_knowledge_base kb6Env "新问题" 5 "key" "m" (some "s1")
        kb6Db).2.2,
      ∃ p, e = Effect.kbLlmCall p ∧
        p.messages.map Prod.fst = ["system", "user"] ∧
        p.extra =
          [("history", [("user", "早前问题"), ("assistant", "早前回答")])] ∧
        ∀ m ∈ p.messages, m.2 ≠ "早前问题" ∧ m.2 ≠ "早前回答" := by
  constructor
  · rfl
  · intro e he
    refine ⟨kb6Payload, ?_, by decide, rfl, by decide⟩
    have hl : (chat_with_knowledge_base kb6Env "新问题" 5 "key" "m"
        (some "s1") kb6Db).2.2 = [Effect.kbLlmCall kb6Payload] := rfl
    rw [hl] at he
    simpa using he

/-! ### The pipeline worker (`main.py`, `_job_worker`) -/

/-- Oracles for one `_job_worker` loop body run on a claimed job.
`summarize` stands for the whole fallible body of the Step C `try` block
(`summarize_segments` and `save_summaries`); `syncOutcome` for
`sync_transcript_to_vector_db` (`.error` = the call raised, `.ok b` = its
boolean return). Segment and summary lists are abstracted to atom lists. -/
structure WorkerEnv where
  storedResult : ResultMap
  mediaExists : String → Bool
  download : Except String (List String)
  asr : String → Except String (List Nat)
  savedTranscriptId : Nat
  transcriptSegs : Option (List Nat)
  apiConfigured : Bool
  summarize : List Nat → Except String (List Nat)
  savedSummaryId : Nat
  syncOutcome : Except String Bool

/-- How one worker iteration ends for the claimed job: `finish_job_success`
with the accumulated `res`, or `finish_job_failed` with the exception text. -/
inductive JobOutcome where
  | success (res : ResultMap)
  | failed (err : String)
  deriving DecidableEq, Repr

def JobOutcome.isFailed : JobOutcome → Bool
  | .failed _ => true
  | .success _ => false

def JobOutcome.resultOf : JobOutcome → ResultMap
  | .success res => res
  | .failed _ => []

/-- Python truthiness of `res.get(k)` (missing key counts as falsy), the
stage guard used throughout `_job_worker`. -/
def truthyField (m : ResultMap) (k : String) : Bool :=
  match getField m k with
  | some v => v.truthy
  | none => false

/-- Python `str(...)` on a stored JSON value, as applied to `media_path`
(always written as a string by the worker itself). -/
def JVal.asStr : JVal → String
  | .vstr s => s
  | _ => ""

/-- Step A (download): skipped when `media_path` is truthy and the file
exists; otherwise `download_bilibili` (whose exception is fatal), the
`"下载结果为空"` guard on an empty file list, and the checkpoint patch. -/
def worker_stepA (env : WorkerEnv) : Except String (ResultMap × String) :=
  let res := env.storedResult
  let needDownload :=
    match getField res "media_path" with
    | none => true
    | some v => !v.truthy || !env.mediaExists v.asStr
  if needDownload then
    match env.download with
    | .error e => .error e
    | .ok [] => .error "下载结果为空"
    | .ok (f :: _) =>
        let basename := lastSegment f '/'
        .ok (mergePatch res
          [("media_path", .vstr f), ("basename", .vstr basename),
           ("static_url", .vstr ("/static/" ++ basename)),
           ("progress", .vnat 30), ("stage", .vstr "下载完成")], f)
  else
    .ok (res, ((getField res "media_path").getD .vnull).asStr)

/-- Step B (ASR): run `asr_process` (exception fatal) and `save_transcript`
when `transcript_id` is missing, else reload the stored segments; both
branches leave `segments` in `res`. -/
def worker_stepB (env : WorkerEnv) (res : ResultMap) (media_path : String) :
    Except String (ResultMap × List Nat) :=
  if !truthyField res "transcript_id" then
    match env.asr media_path with
    | .error e => .error e
    | .ok segs =>
        .ok (mergePatch res
          [("transcript_id", .vnat env.savedTranscriptId),
           ("segments", .vlist segs),
           ("progress", .vnat 70), ("stage", .vstr "语音识别完成")], segs)
  else
    let segs := env.transcriptSegs.getD []
    .ok (setField res "segments" (.vlist segs), segs)

/-- Step C (summaries): guarded by missing `summaries` and non-empty
segments; its whole body sits in a `try` whose handler only records
`"摘要生成失败: ..."` in the result — the job does not fail. -/
def worker_stepC (env : WorkerEnv) (res : ResultMap) (segs : List Nat) :
    ResultMap :=
  if !truthyField res "summaries" && !segs.isEmpty then
    if env.apiConfigured then
      match env.summarize segs with
      | .ok summaries =>
          if truthyField res "transcript_id" then
            mergePatch res
              [("summaries", .vlist summaries),
               ("summary_id", .vnat env.savedSummaryId),
               ("progress", .vnat 95), ("stage", .vstr "摘要生成完成")]
          else
            mergePatch res
              [("summaries", .vlist summaries), ("progress", .vnat 95),
               ("stage", .vstr "摘要生成完成（未保存到库）")]
      | .error e =>
          mergePatch res
            [("progress", .vnat 95), ("stage", .vstr ("摘要生成失败: " ++ e))]
    else
      mergePatch res
        [("progress", .vnat 95), ("stage", .vstr "跳过摘要生成（未配置API）")]
  else res

/-- Step D (vector sync): guarded by truthy `transcript_id` and `summaries`;
an exception is caught and recorded as `vector_synced`/`vector_sync_error`
annotations only. -/
def worker_stepD (env : WorkerEnv) (res : ResultMap) : ResultMap :=
  if truthyField res "transcript_id" && truthyField res "summaries" then
    match env.syncOutcome with
    | .ok true => setField res "vector_synced" (.vbool true)
    | .ok false => setField res "vector_synced" (.vbool false)
    | .error e =>
        mergePatch res
          [("vector_synced", .vbool false), ("vector_sync_error", .vstr e)]
  else res

/-- One `_job_worker` iteration on a claimed job: Steps A-D, then Step E
(`res.update({"progress": 100, "stage": "处理完成"})`, `finish_job_success`);
the outer `except` turns an escaped exception into `finish_job_failed`. -/
def job_worker_once (env : WorkerEnv) : JobOutcome :=
  match worker_stepA env with
  | .error e => .failed e
  | .ok (res1, media_path) =>
      match worker_stepB env res1 media_path with
      | .error e => .failed e
      | .ok (res2, segs) =>
          let res3 := worker_stepC env res2 segs
          let res4 := worker_stepD env res3
          .success
            (mergePatch res4 [("progress", .vnat 100), ("stage", .vstr "处理完成")])

theorem worker_stepA_error (env : WorkerEnv) (e : String)
    (h : worker_stepA env = .error e) :
    env.download = .error e ∨ (env.download = .ok [] ∧ e = "下载结果为空") := by
  unfold worker_stepA at h
  dsimp only [] at h
  cases hd : env.download with
  | error e2 =>
      rw [hd] at h
      dsimp only [] at h
      split at h
      · simp at h
        subst h
        exact Or.inl rfl
      · simp at h
  | ok files =>
      cases files with
      | nil =>
          rw [hd] at h
          dsimp only [] at h
          split at h
          · simp at h
            exact Or.inr ⟨rfl, h.symm⟩
          · simp at h
      | cons f fs =>
          rw [hd] at h
          dsimp only [] at h
          split at h
          · simp at h
          · simp at h

theorem worker_stepB_error (env : WorkerEnv) (res : ResultMap)
    (mp : String) (e : String) (h : worker_stepB env res mp = .error e) :
    env.asr mp = .error e := by
  unfold worker_stepB at h
  dsimp only [] at h
  split at h
  · cases ha : env.asr mp with
    | error e2 =>
        rw [ha] at h
        dsimp only [] at h
        simp at h
        subst h
        rfl
    | ok segs =>
        rw [ha] at h
        dsimp only [] at h
        simp at h
  · simp at h

/-- Counterexample for C1: a fresh job whose download and ASR succeed but
whose Summarize stage raises is NOT marked failed — the exception is caught
inside Step C, the job ends `finish_job_success`, the result carries no
`summaries` key, and even the failure annotation in `stage` is overwritten
by Step E with `"处理完成"`. -/
def c1DemoEnv : WorkerEnv :=
  { storedResult := [], mediaExists := fun _ => false,
    download := .ok ["/data/static/v1.mp4"],
    asr := fun _ => .ok [1, 2], savedTranscriptId := 7,
    transcriptSegs := none, apiConfigured := true,
    summarize := fun _ => .error "LLM请求超时", savedSummaryId := 0,
    syncOutcome := .ok true }

/-- C1, evaluated at the failing input: Summarize raises yet the job ends
success with no `summaries` field and the terminal stage text. -/
theorem C1_summarize_failure_not_fatal_counterexample :
    c1DemoEnv.summarize [1, 2] = .error "LLM请求超时" ∧
    (job_worker_once c1DemoEnv).isFailed = false ∧
    getField (job_worker_once c1DemoEnv).resultOf "summaries" = none ∧
    getField (job_worker_once c1DemoEnv).resultOf "stage" =
      some (.vstr "处理完成") :=
  ⟨rfl, by decide, by decide, by decide⟩

/-- C1 amended: only Fetch (download error, or empty download result) and
Transcribe (ASR error) exceptions are fatal — every `finish_job_failed` error
is one of these. A Summarize failure is caught non-fatally exactly like an
Index failure: the job still ends success, with no `summaries` key (its
transient `"摘要生成失败: ..."` annotation overwritten by Step E), while an
Index exception leaves `vector_sync_error`/`vector_synced` annotations in
the successful result. -/
theorem C1_stage_failure_semantics (env : WorkerEnv) :
    (∀ e, job_worker_once env = .failed e →
      env.download = .error e ∨
      (env.download = .ok [] ∧ e = "下载结果为空") ∨
      ∃ mp, env.asr mp = .error e) ∧
    (env.storedResult = [] →
      (∀ e, env.download = .error e → job_worker_once env = .failed e) ∧
      (env.download = .ok [] → job_worker_once env = .failed "下载结果为空") ∧
      (∀ f fs e, env.download = .ok (f :: fs) → env.asr f = .error e →
        job_worker_once env = .failed e) ∧
      (∀ f fs segs e, env.download = .ok (f :: fs) → env.asr f = .ok segs →
        segs ≠ [] → env.apiConfigured = true →
        env.summarize segs = .error e →
        (job_worker_once env).isFailed = false ∧
        getField (job_worker_once env).resultOf "summaries" = none ∧
        getField (job_worker_once env).resultOf "stage" =
          some (.vstr "处理完成")) ∧
      (∀ f fs segs sums e, env.download = .ok (f :: fs) →
        env.asr f = .ok segs → segs ≠ [] → env.apiConfigured = true →
        env.summarize segs = .ok sums → sums ≠ [] →
        env.savedTranscriptId ≠ 0 → env.syncOutcome = .error e →
        (job_worker_once env).isFailed = false ∧
        getField (job_worker_once env).resultOf "vector_sync_error" =
          some (.vstr e) ∧
        getField (job_worker_once env).resultOf "vector_synced" =
          some (.vbool false))) := by
  constructor
  · intro e h
    unfold job_worker_once at h
    cases hA : worker_stepA env with
    | error ea =>
        rw [hA] at h
        simp at h
        subst h
        rcases worker_stepA_error env ea hA with h1 | ⟨h1, h2⟩
        · exact Or.inl h1
        · exact Or.inr (Or.inl ⟨h1, h2⟩)
    | ok pr =>
        obtain ⟨res1, mp⟩ := pr
        rw [hA] at h
        dsimp only [] at h
        cases hB : worker_stepB env res1 mp with
        | error eb =>
            rw [hB] at h
            simp at h
            subst h
            exact Or.inr (Or.inr ⟨mp, worker_stepB_error env res1 mp eb hB⟩)
        | ok pr2 =>
            obtain ⟨res2, segs⟩ := pr2
            rw [hB] at h
            simp at h
  · intro hstored
    refine ⟨?_, ?_, ?_, ?_, ?_⟩
    · intro e hd
      simp [job_worker_once, worker_stepA, hstored, hd, getField]
    · intro hd
      simp [job_worker_once, worker_stepA, hstored, hd, getField]
    · intro f fs e hd ha
      simp [job_worker_once, worker_stepA, worker_stepB, truthyField,
        hstored, hd, ha, getField, setField, mergePatch]
    · intro f fs segs e hd ha hsegs hapi hsum
      refine ⟨?_, ?_, ?_⟩ <;>
        simp [job_worker_once, worker_stepA, worker_stepB, worker_stepC,
          worker_stepD, truthyField, JVal.truthy, JobOutcome.isFailed,
          JobOutcome.resultOf, hstored, hd, ha, hapi, hsum, getField,
          setField, mergePatch, List.isEmpty_iff, hsegs]
    · intro f fs segs sums e hd ha hsegs hapi hsum hsums htid hsync
      refine ⟨?_, ?_, ?_⟩ <;>
        simp [job_worker_once, worker_stepA, worker_stepB, worker_stepC,
          worker_stepD, truthyField, JVal.truthy, JobOutcome.isFailed,
          JobOutcome.resultOf, hstored, hd, ha, hapi, hsum, hsync, getField,
          setField, mergePatch, List.isEmpty_iff, hsegs, hsums,
          bne_iff_ne, htid]

/-- Fresh job whose Index (vector sync) stage raises. -/
def c1SyncFailEnv : WorkerEnv :=
  { storedResult := [], mediaExists := fun _ => false,
    download := .ok ["/data/static/v1.mp4"],
    asr := fun _ => .ok [1, 2], savedTranscriptId := 7,
    transcriptSegs := none, apiConfigured := true,
    summarize := fun _ => .ok [5], savedSummaryId := 2,
    syncOutcome := .error "向量库不可用" }

/-- Witness for the amended C1 at a concrete environment (the Index-failure
annotation branch). -/
theorem C1_stage_failure_semantics_witness :
    c1SyncFailEnv.storedResult = [] ∧
    c1SyncFailEnv.download = .ok ["/data/static/v1.mp4"] ∧
    c1SyncFailEnv.asr "/data/static/v1.mp4" = .ok [1, 2] ∧
    ([1, 2] : List Nat) ≠ [] ∧
    c1SyncFailEnv.apiConfigured = true ∧
    c1SyncFailEnv.summarize [1, 2] = .ok [5] ∧
    ([5] : List Nat) ≠ [] ∧
    c1SyncFailEnv.savedTranscriptId ≠ 0 ∧
    c1SyncFailEnv.syncOutcome = .error "向量库不可用" ∧
    ((job_worker_once c1SyncFailEnv).isFailed = false ∧
      getField (job_worker_once c1SyncFailEnv).resultOf "vector_sync_error" =
        some (.vstr "向量库不可用") ∧
      getField (job_worker_once c1SyncFailEnv).resultOf "vector_synced" =
        some (.vbool false)) :=
  ⟨rfl, rfl, rfl, by decide, rfl, rfl, by decide, by decide, rfl,
    ((C1_stage_failure_semantics c1SyncFailEnv).2 rfl).2.2.2.2
      "/data/static/v1.mp4" [] [1, 2] [5] "向量库不可用" rfl rfl (by decide)
      rfl rfl (by decide) (by decide) rfl⟩

end HearSight
